import Mathlib

/-!
Shallow embedding of the MunicipiosPBA ingestion core (SITECO municipal
financial reports) and proofs about it.

Sources embedded (paths relative to the repository root):
  * src/pipeline/parsers/common.py      (amount regex, parse_amount_ar, normalize helpers)
  * src/ingest/llm_utils.py             (normalize_number, call_structured_output retry loop)
  * src/pipeline/parsers/recursos.py    (resources parser)
  * src/pipeline/parsers/gastos.py      (expenses-by-object parser)
  * src/pipeline/parsers/programas.py   (jurisdiction/program parser)
  * src/pipeline/parsers/movimientos.py (treasury movements parser)
  * src/pipeline/parsers/cuentas.py     (accounts parser)
  * src/pipeline/parsers/sitpat.py      (balance-sheet parser)
  * src/pipeline/parsers/metas.py       (goals parser)
  * src/pipeline/runner.py              (program / goal resolution steps)
  * src/single_shot/pipeline.py         (_map_programas, _map_metas, goals re-extraction,
                                         _normalize_movtes_tipo)
  * src/single_shot/openai_extract.py   (extract_pdf_single_shot retry loop)

Modelling conventions:
  * Python `str` is modelled as `String` / `List Char`; the helpers below mirror
    the exact Python operations used by the source (strip, split, replace, find,
    substring membership, and the literal `re` patterns of the source with
    Python backtracking order).
  * Python `float` is modelled as `ℚ`; `pyFloat?` models `float(str)` on finite
    decimal/exponent literals (inf/nan/underscore literals are out of scope -
    no input produced by these parsers contains them).
  * Unicode NFKD + ascii-ignore folding (normalize_key) is modelled by a
    character table covering the Latin letters occurring in these documents;
    other non-ascii characters are dropped, as the Python ascii-ignore does.
  * Fallible code returns `Option` / `Except`; a raised `ValueError` is
    modelled as `Except.error`.
-/

/-- Python whitespace (the characters `str.strip()` / `str.split()` treat as
whitespace in the ascii range). -/
def isPyWs (c : Char) : Bool :=
  c = ' ' || c = '\t' || c = '\n' || c = '\r' || c = '\x0b' || c = '\x0c'

/-- Strip characters satisfying `p` from both ends (Python `str.strip`). -/
def stripChars (p : Char → Bool) (cs : List Char) : List Char :=
  ((cs.dropWhile p).reverse.dropWhile p).reverse

/-- Python `str.strip()` on a character list. -/
def pyStrip (cs : List Char) : List Char := stripChars isPyWs cs

/-- Accumulator worker for Python `str.split()`. -/
def splitWsAux : List Char → List Char → List (List Char)
  | [], acc => if acc.isEmpty then [] else [acc.reverse]
  | c :: rest, acc =>
    if isPyWs c then
      if acc.isEmpty then splitWsAux rest [] else acc.reverse :: splitWsAux rest []
    else splitWsAux rest (c :: acc)

/-- Python `str.split()` (split on whitespace runs, no empty pieces). -/
def splitWs (cs : List Char) : List (List Char) := splitWsAux cs []

/-- `normalize_name` (src/pipeline/parsers/common.py:15 and recursos.py:58):
`" ".join(text.strip().split())`. -/
def normalize_name (s : String) : String :=
  String.intercalate " " ((splitWs s.data).map String.mk)

/-- One character of Python `unicodedata.normalize("NFKD", ·)` followed by
ascii-encode-with-ignore: ascii characters are kept, accented Latin letters
decompose to their base letter, any other non-ascii character is dropped. -/
def nfkdAscii (c : Char) : List Char :=
  if c.toNat ≤ 127 then [c]
  else if c = 'á' || c = 'à' || c = 'â' || c = 'ä' || c = 'ã' then ['a']
  else if c = 'Á' || c = 'À' || c = 'Â' || c = 'Ä' || c = 'Ã' then ['A']
  else if c = 'é' || c = 'è' || c = 'ê' || c = 'ë' then ['e']
  else if c = 'É' || c = 'È' || c = 'Ê' || c = 'Ë' then ['E']
  else if c = 'í' || c = 'ì' || c = 'î' || c = 'ï' then ['i']
  else if c = 'Í' || c = 'Ì' || c = 'Î' || c = 'Ï' then ['I']
  else if c = 'ó' || c = 'ò' || c = 'ô' || c = 'ö' || c = 'õ' then ['o']
  else if c = 'Ó' || c = 'Ò' || c = 'Ô' || c = 'Ö' || c = 'Õ' then ['O']
  else if c = 'ú' || c = 'ù' || c = 'û' || c = 'ü' then ['u']
  else if c = 'Ú' || c = 'Ù' || c = 'Û' || c = 'Ü' then ['U']
  else if c = 'ñ' then ['n']
  else if c = 'Ñ' then ['N']
  else if c = 'ç' then ['c']
  else if c = 'Ç' then ['C']
  else if c = 'º' then ['o']
  else if c = 'ª' then ['a']
  else []

/-- `normalize_key` (src/pipeline/parsers/common.py:21, also `_normalize_key`
in recursos.py / gastos.py / programas.py): normalize_name, NFKD +
ascii-ignore, lower-case. -/
def normalize_key (s : String) : String :=
  String.mk (((normalize_name s).data.flatMap nfkdAscii).map Char.toLower)

/-- Python substring membership `sub in hay`. -/
def listContains : List Char → List Char → Bool
  | hay, sub =>
    if sub.isPrefixOf hay then true
    else
      match hay with
      | [] => false
      | _ :: t => listContains t sub

/-- Python `sub in hay` on strings. -/
def strContains (hay sub : String) : Bool := listContains hay.data sub.data

/-- All start indices of occurrences of `sub` in `hay`, offset by `i`. -/
def occIdx : List Char → List Char → Nat → List Nat
  | [], sub, i => if sub.isEmpty then [i] else []
  | h :: t, sub, i =>
    (if sub.isPrefixOf (h :: t) then [i] else []) ++ occIdx t sub (i + 1)

/-- Python `hay.find(sub)` returning `none` for -1. -/
def strFind? (hay sub : List Char) : Option Nat := (occIdx hay sub 0).head?

/-- Python `hay.rfind(sub)` returning `none` for -1. -/
def strRFind? (hay sub : List Char) : Option Nat := (occIdx hay sub 0).getLast?

/-- Worker for Python `str.splitlines()`. -/
def splitLinesAux : List Char → List Char → List String
  | [], acc => [String.mk acc.reverse]
  | '\r' :: '\n' :: rest, acc => String.mk acc.reverse :: splitLinesAux rest []
  | '\r' :: rest, acc => String.mk acc.reverse :: splitLinesAux rest []
  | '\n' :: rest, acc => String.mk acc.reverse :: splitLinesAux rest []
  | c :: rest, acc => splitLinesAux rest (c :: acc)

/-- Python `text.splitlines()` restricted to the terminators `\n`, `\r\n`, `\r`
(the ones a pdfplumber text layer can contain): empty text gives no lines and
a trailing terminator does not add an empty final line. -/
def splitLines (s : String) : List String :=
  match s.data with
  | [] => []
  | cs =>
    let ls := splitLinesAux cs []
    if ls.getLast? = some "" then ls.dropLast else ls

/-! ### The amount-token regex

`_AMOUNT_RE = re.compile(r"-?\d{1,3}(?:\.\d{3})*(?:,\d{2})")`
(src/pipeline/parsers/common.py:12, duplicated in recursos.py:12,
gastos.py:14, programas.py:14).  The matcher below implements exactly this
pattern with Python backtracking order: greedy `\d{1,3}` (3, then 2, then 1),
greedy star backtracking group by group. -/

/-- The mandatory decimal part `,\d{2}` of the amount token. -/
def decPart : List Char → Option (List Char × List Char)
  | ',' :: a :: b :: rest =>
    if a.isDigit && b.isDigit then some ([',', a, b], rest) else none
  | _ => none

/-- A thousands group `\.\d{3}` at the head of the input. -/
def groupAt : List Char → Option (List Char × List Char)
  | '.' :: a :: b :: c :: rest =>
    if a.isDigit && b.isDigit && c.isDigit then some (['.', a, b, c], rest) else none
  | _ => none

theorem decPart_append {cs t r : List Char} (h : decPart cs = some (t, r)) :
    cs = t ++ r ∧ t.length = 3 := by
  unfold decPart at h
  split at h
  · split at h
    · cases h; simp
    · cases h
  · cases h

theorem groupAt_append {cs t r : List Char} (h : groupAt cs = some (t, r)) :
    cs = t ++ r ∧ t.length = 4 := by
  unfold groupAt at h
  split at h
  · split at h
    · cases h; simp
    · cases h
  · cases h

/-- `(?:\.\d{3})*(?:,\d{2})` with greedy star and backtracking: consume as
many thousands groups as possible, falling back to fewer when the decimal
part does not follow. -/
def matchTail : List Char → Option (List Char × List Char)
  | '.' :: a :: b :: c :: rest =>
    if a.isDigit && b.isDigit && c.isDigit then
      match matchTail rest with
      | some (t, r) => some ('.' :: a :: b :: c :: t, r)
      | none => decPart ('.' :: a :: b :: c :: rest)
    else decPart ('.' :: a :: b :: c :: rest)
  | cs => decPart cs

theorem matchTail_append_aux :
    ∀ (n : Nat) (cs t r : List Char), cs.length ≤ n → matchTail cs = some (t, r) →
      cs = t ++ r ∧ 3 ≤ t.length := by
  intro n
  induction n with
  | zero =>
    intro cs t r hl h
    have hcs : cs = [] := List.eq_nil_of_length_eq_zero (by omega)
    subst hcs
    rw [matchTail.eq_def] at h
    simp [decPart] at h
  | succ n ih =>
    intro cs t r hl h
    rw [matchTail.eq_def] at h
    split at h
    · rename_i a b c rest
      split at h
      · cases hmt : matchTail rest with
        | none =>
          rw [hmt] at h
          obtain ⟨e1, e2⟩ := decPart_append h
          exact ⟨e1, by omega⟩
        | some q =>
          obtain ⟨t2, r2⟩ := q
          rw [hmt] at h
          simp only [Option.some.injEq, Prod.mk.injEq] at h
          obtain ⟨ht, hr⟩ := h
          subst ht
          subst hr
          obtain ⟨e1, e2⟩ := ih rest t2 r2 (by simp at hl; omega) hmt
          refine ⟨?_, ?_⟩
          · rw [e1]
            simp
          · simp only [List.length_cons]
            omega
      · obtain ⟨e1, e2⟩ := decPart_append h
        exact ⟨e1, by omega⟩
    · obtain ⟨e1, e2⟩ := decPart_append h
      exact ⟨e1, by omega⟩

theorem matchTail_append {cs t r : List Char} (h : matchTail cs = some (t, r)) :
    cs = t ++ r ∧ 3 ≤ t.length :=
  matchTail_append_aux cs.length cs t r (le_refl _) h

/-- Attach a digit prefix of the token to a `matchTail` result. -/
def withDigits (ds : List Char) (rest : List Char) : Option (List Char × List Char) :=
  (matchTail rest).map (fun p => (ds ++ p.1, p.2))

theorem withDigits_append {ds rest t r : List Char}
    (h : withDigits ds rest = some (t, r)) :
    ds ++ rest = t ++ r ∧ ds.length + 3 ≤ t.length := by
  simp only [withDigits, Option.map_eq_some'] at h
  obtain ⟨⟨t', r'⟩, hmt, heq⟩ := h
  have := matchTail_append hmt
  cases heq
  constructor
  · rw [this.1]; simp
  · simp; omega

/-- `\d{1,3}(?:\.\d{3})*(?:,\d{2})`: greedy digit count 3, then 2, then 1
(each followed by `matchTail` of the remainder, first success wins). -/
def digitsStart : List Char → Option (List Char × List Char)
  | d1 :: d2 :: d3 :: r3 =>
    if d1.isDigit then
      if d2.isDigit then
        if d3.isDigit then
          withDigits [d1, d2, d3] r3 <|> withDigits [d1, d2] (d3 :: r3) <|>
            withDigits [d1] (d2 :: d3 :: r3)
        else withDigits [d1, d2] (d3 :: r3) <|> withDigits [d1] (d2 :: d3 :: r3)
      else withDigits [d1] (d2 :: d3 :: r3)
    else none
  | [d1, d2] =>
    if d1.isDigit then
      if d2.isDigit then withDigits [d1, d2] [] <|> withDigits [d1] [d2]
      else withDigits [d1] [d2]
    else none
  | [d1] => if d1.isDigit then withDigits [d1] [] else none
  | [] => none

theorem orElse_eq_some {α : Type} {a b : Option α} {x : α} (h : (a <|> b) = some x) :
    a = some x ∨ b = some x := by
  cases a with
  | none => right; simpa using h
  | some v => left; simpa using h

theorem withDigits_concl {ds rest t r : List Char} (h : withDigits ds rest = some (t, r))
    (hds : 1 ≤ ds.length) (cs : List Char) (hcs : ds ++ rest = cs) :
    cs = t ++ r ∧ 4 ≤ t.length := by
  obtain ⟨e1, e2⟩ := withDigits_append h
  constructor
  · rw [← hcs, e1]
  · omega

theorem digitsStart_append {cs t r : List Char} (h : digitsStart cs = some (t, r)) :
    cs = t ++ r ∧ 4 ≤ t.length := by
  match cs, h with
  | d1 :: d2 :: d3 :: r3, h =>
    simp only [digitsStart] at h
    split at h
    · split at h
      · split at h
        · rcases orElse_eq_some h with h1 | h1
          · exact withDigits_concl h1 (by simp) _ (by simp)
          · rcases orElse_eq_some h1 with h2 | h2
            · exact withDigits_concl h2 (by simp) _ (by simp)
            · exact withDigits_concl h2 (by simp) _ (by simp)
        · rcases orElse_eq_some h with h1 | h1
          · exact withDigits_concl h1 (by simp) _ (by simp)
          · exact withDigits_concl h1 (by simp) _ (by simp)
      · exact withDigits_concl h (by simp) _ (by simp)
    · cases h
  | [d1, d2], h =>
    simp only [digitsStart] at h
    split at h
    · split at h
      · rcases orElse_eq_some h with h1 | h1
        · exact withDigits_concl h1 (by simp) _ (by simp)
        · exact withDigits_concl h1 (by simp) _ (by simp)
      · exact withDigits_concl h (by simp) _ (by simp)
    · cases h
  | [d1], h =>
    simp only [digitsStart] at h
    split at h
    · exact withDigits_concl h (by simp) _ (by simp)
    · cases h

/-- One match attempt of `_AMOUNT_RE` anchored at the head of `cs`
(`-?` tries the sign first; without the sign the head must be a digit, so a
leading `-` not followed by a token fails). -/
def matchAmountAt (cs : List Char) : Option (List Char × List Char) :=
  match cs with
  | c :: rest =>
    if c = '-' then (digitsStart rest).map (fun p => ('-' :: p.1, p.2))
    else digitsStart (c :: rest)
  | [] => none

theorem matchAmountAt_append {cs t r : List Char}
    (h : matchAmountAt cs = some (t, r)) : cs = t ++ r ∧ 4 ≤ t.length := by
  match cs, h with
  | c :: rest, h =>
    simp only [matchAmountAt] at h
    split at h
    · rename_i hc
      subst hc
      simp only [Option.map_eq_some'] at h
      obtain ⟨⟨t', r'⟩, hds, heq⟩ := h
      have := digitsStart_append hds
      cases heq
      constructor
      · simp [this.1]
      · simp
        omega
    · exact digitsStart_append h

theorem matchAmountAt_lt {cs t r : List Char}
    (h : matchAmountAt cs = some (t, r)) : r.length < cs.length := by
  have := matchAmountAt_append h
  have hlen : cs.length = t.length + r.length := by rw [this.1]; simp
  omega

/-- Python `_AMOUNT_RE.findall`: left-to-right non-overlapping scan.  The
fuel argument is a structural termination measure; every step consumes at
least one character (`matchAmountAt_lt`), so fuel `cs.length` is never
exhausted. -/
def scanAmountsF : Nat → List Char → List (List Char)
  | 0, _ => []
  | fuel + 1, cs =>
    match matchAmountAt cs with
    | some (m, rest) => m :: scanAmountsF fuel rest
    | none =>
      match cs with
      | [] => []
      | _ :: t => scanAmountsF fuel t

def scanAmounts (cs : List Char) : List (List Char) := scanAmountsF cs.length cs

/-- `find_amounts` (src/pipeline/parsers/common.py:38):
`_AMOUNT_RE.findall(text)`. -/
def find_amounts (s : String) : List String := (scanAmounts s.data).map String.mk

/-- Python `_AMOUNT_RE.sub("", line)`: remove every match (same fuel
discipline as `scanAmountsF`). -/
def subAmountsF : Nat → List Char → List Char
  | 0, _ => []
  | fuel + 1, cs =>
    match matchAmountAt cs with
    | some (_, rest) => subAmountsF fuel rest
    | none =>
      match cs with
      | [] => []
      | c :: t => c :: subAmountsF fuel t

def subAmounts (cs : List Char) : List Char := subAmountsF cs.length cs

/-! ### Python `float()` and the two amount normalizers -/

/-- Numeric value of a digit list (most significant first). -/
def digitsToNat (ds : List Char) : Nat :=
  ds.foldl (fun n c => n * 10 + (c.toNat - '0'.toNat)) 0

/-- Leading `+`/`-` sign of a float literal: sign factor and remainder. -/
def pySign : List Char → Int × List Char
  | '+' :: t => (1, t)
  | '-' :: t => (-1, t)
  | cs => (1, cs)

/-- Fractional part after the integer digits of a float literal: digits
after a leading `.`, and the remainder. -/
def pyFrac : List Char → List Char × List Char
  | '.' :: t => (t.takeWhile Char.isDigit, t.dropWhile Char.isDigit)
  | cs => ([], cs)

/-- Model of Python `float(str)` on finite literals: optional sign, decimal
digits with optional fractional part, optional exponent.  Returns the exact
rational value, built with integer arithmetic and a single `mkRat` so that
concrete values reduce in the kernel. -/
def pyFloatL (cs0 : List Char) : Option ℚ :=
  let cs := pyStrip cs0
  let sgnCs := pySign cs
  let ip := sgnCs.2.takeWhile Char.isDigit
  let cs2 := sgnCs.2.dropWhile Char.isDigit
  let fpCs := pyFrac cs2
  let fp := fpCs.1
  let cs3 := fpCs.2
  if ip.isEmpty && fp.isEmpty then none
  else
    let mant : Int := sgnCs.1 * (digitsToNat ip * 10 ^ fp.length + digitsToNat fp)
    match cs3 with
    | [] => some (mkRat mant (10 ^ fp.length))
    | e :: t =>
      if e = 'e' || e = 'E' then
        let esgnCs : Bool × List Char :=
          match t with
          | '+' :: t2 => (false, t2)
          | '-' :: t2 => (true, t2)
          | _ => (false, t)
        let ed := esgnCs.2.takeWhile Char.isDigit
        let rest := esgnCs.2.dropWhile Char.isDigit
        if ed.isEmpty || !rest.isEmpty then none
        else
          let ex := digitsToNat ed
          if esgnCs.1 then some (mkRat mant (10 ^ fp.length * 10 ^ ex))
          else some (mkRat (mant * (10 : Int) ^ ex) (10 ^ fp.length))
      else none

/-- `s.replace(".", "").replace(",", ".")` as used by both amount
normalizers: drop thousands dots, turn the decimal comma into a dot. -/
def cleanAmount (cs : List Char) : List Char :=
  cs.flatMap (fun c => if c = '.' then [] else if c = ',' then ['.'] else [c])

/-- `parse_amount_ar` (src/pipeline/parsers/common.py:28, duplicated in
recursos.py:43): `None`/empty input raises `ValueError("Valor vacio.")`,
otherwise strip, drop `.`, turn `,` into `.`, and `float(...)` (whose
`ValueError` on non-numeric input is the second error case). -/
def parse_amount_ar (value : Option String) : Except String ℚ :=
  match value with
  | none => .error "Valor vacio."
  | some v =>
    let s := pyStrip v.data
    if s.isEmpty then .error "Valor vacio."
    else
      match pyFloatL (cleanAmount s) with
      | some q => .ok q
      | none => .error ("could not convert string to float: " ++ String.mk (cleanAmount s))

/-- Amount value of a token already known to match `_AMOUNT_RE` (as the
parsers use it); the fallback 0 is unreachable on such tokens, see
`parse_amount_ar` totality below. -/
def amountValue (s : String) : ℚ :=
  match parse_amount_ar (some s) with
  | .ok q => q
  | .error _ => 0

/-- `normalize_number` (src/ingest/llm_utils.py:11): strip, empty gives
`None`, a surrounding parenthesis pair marks a negative, `strip("()")`,
drop `.` / `,` to `.`, `float(...)`, `None` on `ValueError`. -/
def normalize_number (value : String) : Option ℚ :=
  let cleaned := pyStrip value.data
  if cleaned.isEmpty then none
  else
    let negative :=
      (match cleaned.head? with | some '(' => true | _ => false) &&
      (match cleaned.getLast? with | some ')' => true | _ => false)
    let cleaned2 := stripChars (fun c => c = '(' || c = ')') cleaned
    match pyFloatL (cleanAmount cleaned2) with
    | some n => some (if negative then -n else n)
    | none => none

/-! ### Shared parser helpers -/

/-- Python ascii `str.lower()` of a character list. -/
def asciiLower (cs : List Char) : List Char := cs.map Char.toLower

/-- Python `s.startswith(p)`. -/
def strStarts (s p : String) : Bool := p.data.isPrefixOf s.data

/-- Python regex `\s` (ascii range). -/
def isReWs (c : Char) : Bool := isPyWs c

/-- Python regex `\w` (word character): ascii alphanumerics, underscore; the
non-ascii letters of these documents (accented Latin) are word characters
too, so any non-ascii character is treated as one. -/
def isWordChar (c : Char) : Bool := c.isAlphanum || c = '_' || decide (127 < c.toNat)

/-- First success of `f` over a list (ordered backtracking choice). -/
def firstSome {α β : Type} : List α → (α → Option β) → Option β
  | [], _ => none
  | a :: t, f =>
    match f a with
    | some b => some b
    | none => firstSome t f

/-- `[hi, hi-1, ..., lo]` (greedy backtracking candidate order). -/
def descRange (hi lo : Nat) : List Nat := (List.range (hi + 1 - lo)).map (fun i => hi - i)

/-- `_is_total_row` (recursos.py:67, gastos.py:29, programas.py:34):
lower-cased normalized name starts with `"total"` or contains
`"total general"`. -/
def isTotalRow (name : String) : Bool :=
  let n := asciiLower (normalize_name name).data
  "total".data.isPrefixOf n || listContains n "total general".data

/-! ### recursos.py -/

/-- `_SECTION_END_KEYWORDS` of recursos.py:14. -/
def recursosEndKeywords : List String :=
  ["evolucion de los gastos", "evolucion del gasto", "estado de ejecucion del gasto",
   "estado de ejecucion de gastos", "evolucion de gastos por objeto",
   "evolucion de gastos por programa", "evolucion de las principales metas",
   "movimientos de tesoreria", "estado de situacion patrimonial",
   "cuenta ahorro inversion financiamiento"]

/-- The alternatives of `_RIGHT_COL_RE` (recursos.py:26); the `\s+` between
words is a single space on a `normalize_name`-normalized line. -/
def rightColPhrases : List String :=
  ["cuenta ahorro", "ahorro corriente", "gastos corrientes", "gastos de capital",
   "resultado financiero", "ingresos totales", "gastos totales",
   "fuentes financieras", "aplicaciones financieras"]

/-- Leftmost index at which one of `ps` occurs in `low` (the `.start()` of an
alternation search). -/
def searchAnyAux : List Char → List (List Char) → Nat → Option Nat
  | [], ps, i => if ps.any (fun p => p.isEmpty) then some i else none
  | c :: t, ps, i =>
    if ps.any (fun p => p.isPrefixOf (c :: t)) then some i
    else searchAnyAux t ps (i + 1)

/-- `_RIGHT_COL_RE.search(line)` start index (case-insensitive search). -/
def searchRightCol (line : List Char) : Option Nat :=
  searchAnyAux (asciiLower line) (rightColPhrases.map (fun p => p.data)) 0

/-- A roman-numeral character for `[ivx]` with `re.IGNORECASE`. -/
def isRomanChar (c : Char) : Bool :=
  let l := c.toLower
  l = 'i' || l = 'v' || l = 'x'

/-- `_ROMAN_RIGHT_RE.match(line)` (recursos.py:32): `^\s*[ivx]+\.` with
IGNORECASE; the greedy run must be followed by a dot. -/
def romanRightMatch (line : List Char) : Bool :=
  let rest := line.dropWhile isReWs
  let run := rest.takeWhile isRomanChar
  decide (1 ≤ run.length) && decide ((rest.drop run.length).head? = some '.')

/-- `_ROMAN_INLINE_RE.search(line)` (recursos.py:33): `\b[IVX]+\.`
(uppercase, word boundary); returns the match start index. -/
def romanInlineAux : Option Char → List Char → Nat → Option Nat
  | prev, cs, i =>
    let bnd := match prev with | none => true | some c => !(isWordChar c)
    let run := cs.takeWhile (fun c => c = 'I' || c = 'V' || c = 'X')
    if bnd && decide (1 ≤ run.length) && decide ((cs.drop run.length).head? = some '.') then
      some i
    else
      match cs with
      | [] => none
      | c :: t => romanInlineAux (some c) t (i + 1)

/-- `_ROMAN_INLINE_RE.search(line)` start index. -/
def romanInlineSearch (line : List Char) : Option Nat := romanInlineAux none line 0

/-- `_split_left_column` (recursos.py:87). -/
def splitLeftColumn (line : String) : String :=
  match romanInlineSearch line.data with
  | some i => String.mk (pyStrip (line.data.take i))
  | none =>
    match searchRightCol line.data with
    | some i => String.mk (pyStrip (line.data.take i))
    | none => line

/-- `_is_right_column_line` (recursos.py:97). -/
def isRightColumnLine (line : String) : Bool :=
  if romanRightMatch line.data then true
  else
    let low := normalize_key line
    strContains low "cuenta ahorro inversion financiamiento" ||
      strContains low "resultado financiero"

/-- A row of `bd_recursos` produced by `parse_recursos_from_text`. -/
structure RecRow where
  Rec_Tipo : String
  Rec_Nombre : String
  Rec_Categoria : String
  Rec_Vigente : Option ℚ
  Rec_Devengado : Option ℚ
  Rec_Percibido : Option ℚ
deriving DecidableEq, Repr

/-- Scanner state of `parse_recursos_from_text` (`tipo_actual`, `in_section`,
plus the `break` flag and the accumulated rows and warnings). -/
structure RecState where
  inSection : Bool
  stopped : Bool
  tipo : Option String
  rows : List RecRow
  warnings : List String
deriving DecidableEq, Repr

def recInit : RecState := ⟨false, false, none, [], []⟩

/-- Name of a row: `line[:line.find(first_amount)]` when the amount is not at
position 0, the whole line otherwise (recursos.py:163-165). -/
def nameBeforeAmount (line : String) (firstAmount : String) : String :=
  let idx := (strFind? line.data firstAmount.data).getD 0
  if 0 < idx then normalize_name (String.mk (line.data.take idx)) else normalize_name line

/-- One line of `parse_recursos_from_text` (recursos.py:123-206). -/
def recStep (st : RecState) (raw : String) : RecState :=
  if st.stopped then st
  else
    let line := normalize_name raw
    if line.isEmpty then st
    else
      let low := normalize_key line
      if !st.inSection then
        if strContains low "evolucion de los recursos" ||
            (strContains low "evolucion" && strContains low "recursos") then
          { st with inSection := true }
        else st
      else if recursosEndKeywords.any (fun k => strContains low k) then
        { st with stopped := true }
      else if isRightColumnLine line then st
      else
        let line := splitLeftColumn line
        if line.isEmpty then st
        else
          let low := normalize_key line
          let t1 : Option String × Bool :=
            if strStarts low "1." && strContains low "presupuest" then (some "Presupuestario", true)
            else (st.tipo, false)
          let t2 : Option String × Bool :=
            if strStarts low "2." && strContains low "extrapresupuest" then
              (some "Extrapresupuestario", true)
            else t1
          let tipo := t2.1
          let tipoLine := t2.2
          let st := { st with tipo := tipo }
          let amounts := find_amounts line
          if 3 ≤ amounts.length then
            match amounts with
            | a0 :: a1 :: a2 :: _ =>
              let vig := amountValue a0
              let dev := amountValue a1
              let per := amountValue a2
              let name := nameBeforeAmount line a0
              if isTotalRow name then st
              else
                match tipo with
                | none =>
                  { st with warnings :=
                      st.warnings ++ ["Fila sin tipo detectado: \x27" ++ line ++ "\x27"] }
                | some t =>
                  { st with rows := st.rows ++ [⟨t, name, name, some vig, some dev, some per⟩] }
            | _ => st
          else if amounts.length = 1 && tipoLine && tipo = some "Presupuestario" then st
          else if amounts.length = 1 && tipo = some "Extrapresupuestario" then
            match amounts with
            | a0 :: _ =>
              let per := amountValue a0
              let name := if tipoLine then "Extrapresupuestario" else nameBeforeAmount line a0
              if isTotalRow name then st
              else
                { st with rows :=
                    st.rows ++ [⟨"Extrapresupuestario", name, name, none, none, some per⟩] }
            | _ => st
          else if 0 < amounts.length && amounts.length ≠ 3 then
            { st with warnings :=
                st.warnings ++ ["Fila con cantidad de importes inesperada: \x27" ++ line ++ "\x27"] }
          else st

/-- `parse_recursos_from_text` over pre-split lines. -/
def parse_recursos_lines (lines : List String) : List RecRow × List String :=
  let st := lines.foldl recStep recInit
  (st.rows, st.warnings)

/-- `parse_recursos_from_text` (recursos.py:108): rows and the warnings the
call appends to its (fresh) warnings list. -/
def parse_recursos_from_text (text : String) : List RecRow × List String :=
  parse_recursos_lines (splitLines text)

/-! ### gastos.py -/

/-- A row of `bd_gastos` produced by `parse_gastos_objeto_from_text`. -/
structure GastoRow where
  Gasto_Categoria : String
  Gasto_Objeto : String
  Gasto_Vigente : ℚ
  Gasto_Preventivo : ℚ
  Gasto_Compromiso : ℚ
  Gasto_Devengado : ℚ
  Gasto_Pagado : ℚ
deriving DecidableEq, Repr

/-- Scanner state of `parse_gastos_objeto_from_text`. -/
structure GastoState where
  inSection : Bool
  stopped : Bool
  tipo : Option String
  rows : List GastoRow
  warnings : List String
deriving DecidableEq, Repr

def gastoInit : GastoState := ⟨false, false, none, [], []⟩

/-- `_SECTION_END_KEYWORDS` of gastos.py:16. -/
def gastosEndKeywords : List String :=
  ["evolucion de gastos por programa", "evolucion de los recursos"]

/-- One line of `parse_gastos_objeto_from_text` (gastos.py:51-99). -/
def gastoStep (st : GastoState) (raw : String) : GastoState :=
  if st.stopped then st
  else
    let line := normalize_name raw
    if line.isEmpty then st
    else
      let low := normalize_key line
      if !st.inSection then
        if strContains low "evolucion de gastos por objeto" then { st with inSection := true }
        else st
      else if gastosEndKeywords.any (fun k => strContains low k) then
        { st with stopped := true }
      else if strStarts low "1." && strContains low "presupuest" then
        { st with tipo := some "Presupuestarios" }
      else if strStarts low "2." && strContains low "extrapresupuest" then
        { st with tipo := some "Extrapresupuestarios" }
      else
        let amounts := find_amounts line
        if 5 ≤ amounts.length then
          match amounts.drop (amounts.length - 5) with
          | [a5, a4, a3, a2, a1] =>
            let vig := amountValue a5
            let prev := amountValue a4
            let comp := amountValue a3
            let dev := amountValue a2
            let pag := amountValue a1
            let name := normalize_name (String.mk (subAmounts line.data))
            if isTotalRow name then st
            else
              match st.tipo with
              | none =>
                { st with warnings :=
                    st.warnings ++ ["Fila sin tipo detectado: \x27" ++ line ++ "\x27"] }
              | some t =>
                { st with rows := st.rows ++ [⟨t, name, vig, prev, comp, dev, pag⟩] }
          | _ => st
        else st

/-- `parse_gastos_objeto_from_text` over pre-split lines. -/
def parse_gastos_lines (lines : List String) : List GastoRow × List String :=
  let st := lines.foldl gastoStep gastoInit
  (st.rows, st.warnings)

/-- `parse_gastos_objeto_from_text` (gastos.py:38). -/
def parse_gastos_objeto_from_text (text : String) : List GastoRow × List String :=
  parse_gastos_lines (splitLines text)

/-! ### programas.py -/

/-- `_CODE_LINE_RE = re.compile(r"^(\d{4,})\s*-?\s*(\d{1,3})\s+(.+)$")`
(programas.py:15), with Python backtracking order: group 1 greedy from the
full leading digit run down to 4 digits, separators greedy, group 2 greedy
3-2-1 digits, then at least one whitespace and a nonempty remainder. -/
def matchCodeLine (cs : List Char) : Option (String × String × String) :=
  let dr := (cs.takeWhile Char.isDigit).length
  if dr < 4 then none
  else
    firstSome (descRange dr 4) fun k =>
      let a := cs.take k
      let r1 := cs.drop k
      let s1 := (r1.takeWhile isReWs).length
      firstSome (descRange s1 0) fun j =>
        let r2 := r1.drop j
        let dashOpts : List (List Char) :=
          match r2 with
          | '-' :: r3 => [r3, r2]
          | _ => [r2]
        firstSome dashOpts fun r3 =>
          let s2 := (r3.takeWhile isReWs).length
          firstSome (descRange s2 0) fun j2 =>
            let r4 := r3.drop j2
            let br := min (r4.takeWhile Char.isDigit).length 3
            if br < 1 then none
            else
              firstSome (descRange br 1) fun m =>
                let b := r4.take m
                let r5 := r4.drop m
                let s3 := (r5.takeWhile isReWs).length
                if s3 = 0 then none
                else
                  firstSome (descRange s3 1) fun j3 =>
                    let r6 := r5.drop j3
                    if r6.isEmpty then none
                    else some (String.mk a, String.mk b, String.mk r6)

/-- A `bd_jurisdiccion` row from `parse_programas_from_text` (either a bare
`{"Juri_Nombre": ...}` or a `{"Juri_Codigo": ..., "Juri_Nombre": ...}`). -/
structure JuriRow where
  Juri_Codigo : Option String
  Juri_Nombre : Option String
deriving DecidableEq, Repr

/-- A `bd_programas` row from `parse_programas_from_text`. -/
structure ProgRowP where
  Juri_Codigo : Option String
  Juri_Nombre : Option String
  Prog_Codigo : Option String
  Prog_Nombre : String
  Prog_Vigente : ℚ
  Prog_Preventivo : ℚ
  Prog_Compromiso : ℚ
  Prog_Devengado : ℚ
  Prog_Pagado : ℚ
deriving DecidableEq, Repr

/-- Scanner state of `parse_programas_from_text` (`juri_actual`,
`current_group`, `in_section`, `break` flag, outputs). -/
structure ProgState where
  inSection : Bool
  stopped : Bool
  juriActual : Option String
  currentGroup : Option String
  juris : List JuriRow
  progs : List ProgRowP
  warnings : List String
deriving DecidableEq, Repr

def progInit : ProgState := ⟨false, false, none, none, [], [], []⟩

/-- `_SECTION_END_KEYWORDS` of programas.py:17. -/
def programasEndKeywords : List String :=
  ["evolucion de los recursos", "evolucion de gastos por objeto",
   "evolucion de las principales metas", "movimientos de tesoreria",
   "estado de situacion patrimonial", "situacion economico-financiera"]

/-- One line of `parse_programas_from_text` (programas.py:58-159). -/
def progStep (st : ProgState) (raw : String) : ProgState :=
  if st.stopped then st
  else
    let line := normalize_name raw
    if line.isEmpty then st
    else
      let low := normalize_key line
      if !st.inSection then
        if strContains low "evolucion de gastos por programa" then { st with inSection := true }
        else st
      else if programasEndKeywords.any (fun k => strContains low k) then
        { st with stopped := true }
      else if isTotalRow line then st
      else
        match matchCodeLine line.data with
        | none =>
          let amounts := find_amounts line
          let name := normalize_name (String.mk (subAmounts line.data))
          if amounts.length = 0 && (name = "Departamento Ejecutivo" || name = "H.C.D.") then
            { st with currentGroup := some name, juriActual := some name,
                      juris := st.juris ++ [⟨none, some name⟩] }
          else if 5 ≤ amounts.length then
            let juriName :=
              if st.currentGroup = some "H.C.D." &&
                  asciiLower name.data = "actividades centrales".data then "HCD"
              else name
            let progName :=
              if st.currentGroup = some "H.C.D." &&
                  asciiLower name.data = "actividades centrales".data then "HCD"
              else name
            let st := { st with juriActual := some juriName,
                                juris := st.juris ++ [⟨none, some juriName⟩] }
            match amounts.drop (amounts.length - 5) with
            | [a5, a4, a3, a2, a1] =>
              if !(isTotalRow progName) then
                { st with progs := st.progs ++
                    [⟨none, st.juriActual, none, progName, amountValue a5, amountValue a4,
                      amountValue a3, amountValue a2, amountValue a1⟩] }
              else st
            | _ => st
          else st
        | some (juriCode, progCode, progRest) =>
          let amounts := find_amounts progRest
          if amounts.length < 5 then
            { st with warnings :=
                st.warnings ++ ["Fila de programa incompleta: \x27" ++ line ++ "\x27"] }
          else
            match amounts.drop (amounts.length - 5) with
            | [a5, a4, a3, a2, a1] =>
              let name := normalize_name (String.mk (subAmounts progRest.data))
              if isTotalRow name then st
              else
                { st with
                    juris := st.juris ++
                      [⟨some juriCode, st.currentGroup <|> st.juriActual⟩],
                    progs := st.progs ++
                      [⟨some juriCode, none, some progCode, name, amountValue a5,
                        amountValue a4, amountValue a3, amountValue a2, amountValue a1⟩] }
            | _ => st

/-- `parse_programas_from_text` over pre-split lines. -/
def parse_programas_lines (lines : List String) :
    List JuriRow × List ProgRowP × List String :=
  let st := lines.foldl progStep progInit
  (st.juris, st.progs, st.warnings)

/-- `parse_programas_from_text` (programas.py:43): the `jurisdicciones` and
`programas` lists plus appended warnings. -/
def parse_programas_from_text (text : String) :
    List JuriRow × List ProgRowP × List String :=
  parse_programas_lines (splitLines text)

/-! ### movimientos.py -/

/-- `_MOV_TYPES` (movimientos.py:22): `(slug, label)` pairs; the comment in
the source notes the DB constraint only allows Saldo Inicial/Ingreso/Egreso,
so `saldo final` is listed under the `Saldo Inicial` slug. -/
def MOV_TYPES : List (String × String) :=
  [("Saldo Inicial", "saldo inicial"),
   ("Ingreso", "ingresos del periodo"),
   ("Ingreso", "ingresos de ajustes contables"),
   ("Egreso", "gastos del periodo"),
   ("Egreso", "egresos de ajustes contables"),
   ("Saldo Inicial", "saldo final")]

/-- A `bd_movimientosTesoreria` row from `parse_movimientos_from_text`. -/
structure MovRow where
  MovTes_Tipo : String
  MovTes_Importe : ℚ
  MovTes_TipoResumido : String
deriving DecidableEq, Repr

/-- `re.search(r"\b\d{9}\b", line)` start index: a 9-digit run delimited by
word boundaries, leftmost occurrence. -/
def searchNineAux : Option Char → List Char → Nat → Option Nat
  | prev, cs, i =>
    let bnd := match prev with | none => true | some c => !(isWordChar c)
    let ds := cs.takeWhile Char.isDigit
    let after := (cs.drop 9).head?
    if bnd && decide (9 ≤ ds.length) &&
        (match after with | none => true | some c => !(isWordChar c)) then some i
    else
      match cs with
      | [] => none
      | c :: t => searchNineAux (some c) t (i + 1)

def searchNineDigits (cs : List Char) : Option Nat := searchNineAux none cs 0

/-- Scanner state of `parse_movimientos_from_text`: the `found` dict is an
association list keyed by slug (a slug is inserted at most once). -/
structure MovState where
  inSection : Bool
  stopped : Bool
  found : List (String × MovRow)
deriving DecidableEq, Repr

def movInit : MovState := ⟨false, false, []⟩

/-- `_SECTION_END_KEYWORDS` of movimientos.py:14. -/
def movEndKeywords : List String :=
  ["estado de situacion patrimonial", "demostracion del saldo",
   "evolucion de las principales metas"]

/-- The first `(slug, label)` of `_MOV_TYPES` whose label occurs in the line
key and whose slug is not yet in `found` (movimientos.py:77-78). -/
def movFindType (st : MovState) (low : String) : Option (String × String) :=
  MOV_TYPES.find? (fun sl =>
    strContains low sl.2 && !(st.found.any (fun e => e.1 = sl.1)))

/-- `tipo_text` of a matched movement line (movimientos.py:80-83). -/
def movTipoText (line : String) : String :=
  if line.data.contains ':' then
    normalize_name (String.mk (line.data.takeWhile (fun c => c ≠ ':')))
  else normalize_name line

/-- The amount / `_MOV_TYPES` part of the loop body
(movimientos.py:73-92). -/
def movLineBody (st : MovState) (line : String) (low : String) : MovState :=
  let amounts := find_amounts line
  if amounts.isEmpty then st
  else
    let st2 :=
      match movFindType st low with
      | some sl =>
        { st with found :=
            st.found ++ [(sl.1, ⟨movTipoText line, amountValue (amounts.headD ""), sl.1⟩)] }
      | none => st
    if st2.found.length = MOV_TYPES.length then { st2 with stopped := true } else st2

/-- One line of `parse_movimientos_from_text` (movimientos.py:48-92). -/
def movStep (st : MovState) (raw : String) : MovState :=
  if st.stopped then st
  else
    let line := normalize_name raw
    if line.isEmpty then st
    else
      let low := normalize_key line
      if !st.inSection then
        if strContains low "movimientos de tesoreria" then { st with inSection := true }
        else st
      else if movEndKeywords.any (fun k => strContains low k) then
        { st with stopped := true }
      else if strContains low "movimientos de tesoreria" && strContains low "importe" then st
      else
        let cut : Option (String × String) :=
          match searchNineDigits line.data with
          | some idx =>
            let l2 := String.mk (pyStrip (line.data.take idx))
            some (l2, normalize_key l2)
          | none => none
        match cut with
        | some (l2, _) =>
          if l2.isEmpty then st
          else movLineBody st l2 (normalize_key l2)
        | none => movLineBody st line low

/-- Row assembly after the scan (movimientos.py:94-99): iterate `_MOV_TYPES`
and append `found[slug]` whenever the slug is present - slugs repeat in
`_MOV_TYPES`, so a found row is appended once per occurrence of its slug. -/
def movRows (found : List (String × MovRow)) : List MovRow :=
  MOV_TYPES.foldl (fun acc sl =>
    match found.find? (fun e => e.1 = sl.1) with
    | some e => acc ++ [e.2]
    | none => acc) []

/-- `parse_movimientos_from_text` over pre-split lines. -/
def parse_movimientos_lines (lines : List String) : List MovRow × List String :=
  let st := lines.foldl movStep movInit
  let rows := movRows st.found
  (rows, if rows.isEmpty then ["No se encontraron movimientos de tesoreria."] else [])

/-- `parse_movimientos_from_text` (movimientos.py:38). -/
def parse_movimientos_from_text (text : String) : List MovRow × List String :=
  parse_movimientos_lines (splitLines text)

/-! ### cuentas.py -/

/-- A `bd_cuentas` row from `parse_cuentas_from_text`. -/
structure CuentaRow where
  Cuenta_Codigo : Option String
  Cuenta_Nombre : String
  Cuenta_Tipo : String
  Cuenta_Importe : ℚ
deriving DecidableEq, Repr

/-- `_tipo_from_nombre` (cuentas.py:21). -/
def tipoFromNombre (name : String) : String :=
  let low := normalize_key name
  if strContains low "banco" then "BANCO"
  else if strContains low "fondos" then "FONDOS"
  else if strContains low "recursos" || strContains low "afectados" then "RECURSOS"
  else if strContains low "caja" then "CAJA"
  else "OTRO"

/-- Count of `re.findall(r"\b\d{9}\b", line)` matches.  The scan advances
one position at a time; this equals the non-overlapping `findall` count
because within nine characters after a match no further boundary-delimited
9-digit run can start. -/
def countNineAux : Option Char → List Char → Nat
  | prev, cs =>
    let bnd := match prev with | none => true | some c => !(isWordChar c)
    let ds := cs.takeWhile Char.isDigit
    let after := (cs.drop 9).head?
    let hit := bnd && decide (9 ≤ ds.length) &&
      (match after with | none => true | some c => !(isWordChar c))
    match cs with
    | [] => if hit then 1 else 0
    | c :: t => (if hit then 1 else 0) + countNineAux (some c) t

def countNineDigits (cs : List Char) : Nat := countNineAux none cs

/-- `_CODE_RE.match(line_wo_amount)` (cuentas.py:18): `^\d{6,12}\b`; the
greedy repetition with a trailing word boundary matches exactly a leading
digit run of length 6 to 12 not followed by a word character. -/
def matchCuentaCode (cs : List Char) : Option String :=
  let run := cs.takeWhile Char.isDigit
  if 6 ≤ run.length && run.length ≤ 12 &&
      (match (cs.drop run.length).head? with | none => true | some c => !(isWordChar c)) then
    some (String.mk run)
  else none

/-- Scanner state of `parse_cuentas_from_text`. -/
structure CuentaState where
  inSection : Bool
  stopped : Bool
  rows : List CuentaRow
deriving DecidableEq, Repr

def cuentaInit : CuentaState := ⟨false, false, []⟩

/-- One line of `parse_cuentas_from_text` (cuentas.py:43-111). -/
def cuentaStep (st : CuentaState) (raw : String) : CuentaState :=
  if st.stopped then st
  else
    let line := normalize_name raw
    if line.isEmpty then st
    else
      let low := normalize_key line
      if !st.inSection then
        if strContains low "demostracion del saldo" then { st with inSection := true }
        else st
      else if strContains low "evolucion de las principales metas" then
        { st with stopped := true }
      else if strContains low "total" then st
      else if strContains low "pasivo" || strContains low "activo" ||
          strContains low "patrimonio" then st
      else if 1 < countNineDigits line.data then st
      else
        let amounts := find_amounts line
        match amounts.getLast? with
        | none => st
        | some lastAmount =>
          let importe := amountValue lastAmount
          let idx := (strRFind? line.data lastAmount.data).getD 0
          let lineWo := String.mk (pyStrip (line.data.take idx))
          if lineWo.isEmpty then st
          else if "caja".data.isPrefixOf (asciiLower lineWo.data) then
            { st with rows := st.rows ++ [⟨none, "CAJA", "CAJA", importe⟩] }
          else
            match matchCuentaCode lineWo.data with
            | some code =>
              let nombre0 := String.mk (pyStrip (lineWo.data.drop code.length))
              let nombre := if nombre0.isEmpty then code else nombre0
              { st with rows := st.rows ++ [⟨some code, nombre, tipoFromNombre nombre, importe⟩] }
            | none =>
              { st with rows := st.rows ++ [⟨none, lineWo, tipoFromNombre lineWo, importe⟩] }

/-- `parse_cuentas_from_text` over pre-split lines. -/
def parse_cuentas_lines (lines : List String) : List CuentaRow × List String :=
  let st := lines.foldl cuentaStep cuentaInit
  (st.rows, if st.rows.isEmpty then ["No se encontraron cuentas."] else [])

/-- `parse_cuentas_from_text` (cuentas.py:34). -/
def parse_cuentas_from_text (text : String) : List CuentaRow × List String :=
  parse_cuentas_lines (splitLines text)

/-! ### sitpat.py -/

/-- `_CODE_NAME_MAP` (sitpat.py:21), in source (= dict insertion) order. -/
def SITPAT_CODE_NAME_MAP : List (String × String) :=
  [("110000000", "Activo Corriente"),
   ("120000000", "Activo No Corriente"),
   ("210000000", "Pasivo Corriente"),
   ("220000000", "Pasivo No Corriente"),
   ("311000000", "Capital Fiscal"),
   ("312100000", "Resultados de Ejercicios Anteriores"),
   ("312200000", "Resultado del ejercicio"),
   ("312300000", "Resultados afectados a la construccion de bienes de dominio publico")]

/-- A `bd_situacionpatrimonial` row from `parse_sitpat_from_text`. -/
structure SitPatRow where
  SitPat_Codigo : String
  SitPat_Nombre : String
  SitPat_Saldo : ℚ
  SitPat_Tipo : String
deriving DecidableEq, Repr

/-- `_tipo_from_name` (sitpat.py:33); the last two branches of the source
coincide, which the embedding preserves. -/
def sitpatTipoFromName (name : String) (saldo : Option ℚ) : String :=
  let low := normalize_key name
  if strContains low "activo" then "ACTIVO"
  else if strContains low "pasivo" || strContains low "patrimonio" then "PASIVO_PATRIMONIO"
  else if (match saldo with | some s => decide (s < 0) | none => false) then "PASIVO_PATRIMONIO"
  else "PASIVO_PATRIMONIO"

/-- `_pick_amount_after_code` (sitpat.py:44). -/
def pickAmountAfterCode (line code : String) : Option ℚ :=
  match strFind? line.data code.data with
  | none => none
  | some i =>
    let tail := line.data.drop (i + code.data.length)
    match scanAmounts tail with
    | [] => none
    | a :: _ => some (amountValue (String.mk a))

/-- Scanner state of `parse_sitpat_from_text` (`found` keyed by code). -/
structure SitPatState where
  inSection : Bool
  stopped : Bool
  found : List (String × SitPatRow)
deriving DecidableEq, Repr

def sitpatInit : SitPatState := ⟨false, false, []⟩

/-- `_SECTION_END_KEYWORDS` of sitpat.py:14. -/
def sitpatEndKeywords : List String :=
  ["demostracion del saldo", "evolucion de las principales metas",
   "movimientos de tesoreria"]

/-- One line of `parse_sitpat_from_text` (sitpat.py:65-97). -/
def sitpatStep (st : SitPatState) (raw : String) : SitPatState :=
  if st.stopped then st
  else
    let line := normalize_name raw
    if line.isEmpty then st
    else
      let low := normalize_key line
      if !st.inSection then
        if strContains low "estado de situacion patrimonial" then { st with inSection := true }
        else st
      else if sitpatEndKeywords.any (fun k => strContains low k) then
        { st with stopped := true }
      else if strContains low "estado de situacion patrimonial" && strContains low "saldo" then st
      else if strContains low "movimientos de tesoreria" then st
      else
        let st := SITPAT_CODE_NAME_MAP.foldl (fun st cl =>
          if listContains line.data cl.1.data && !(st.found.any (fun e => e.1 = cl.1)) then
            match pickAmountAfterCode line cl.1 with
            | none => st
            | some saldo =>
              { st with found := st.found ++
                  [(cl.1, ⟨cl.1, cl.2, saldo, sitpatTipoFromName cl.2 (some saldo)⟩)] }
          else st) st
        if st.found.length = SITPAT_CODE_NAME_MAP.length then { st with stopped := true } else st

/-- Row assembly (sitpat.py:99-102): codes in `_CODE_NAME_MAP` order. -/
def sitpatRows (found : List (String × SitPatRow)) : List SitPatRow :=
  if found.isEmpty then []
  else
    SITPAT_CODE_NAME_MAP.foldl (fun acc cl =>
      match found.find? (fun e => e.1 = cl.1) with
      | some e => acc ++ [e.2]
      | none => acc) []

/-- `parse_sitpat_from_text` over pre-split lines. -/
def parse_sitpat_lines (lines : List String) : List SitPatRow × List String :=
  let st := lines.foldl sitpatStep sitpatInit
  let rows := sitpatRows st.found
  (rows, if rows.isEmpty then ["No se encontraron filas de situacion patrimonial."] else [])

/-- `parse_sitpat_from_text` (sitpat.py:55). -/
def parse_sitpat_from_text (text : String) : List SitPatRow × List String :=
  parse_sitpat_lines (splitLines text)

/-! ### metas.py -/

/-- `(?:\.\d{3})+` (at least one thousands group, greedy). -/
def groupsPlus : List Char → Option (List Char × List Char)
  | '.' :: a :: b :: c :: rest =>
    if a.isDigit && b.isDigit && c.isDigit then
      match groupsPlus rest with
      | some (t, r) => some ('.' :: a :: b :: c :: t, r)
      | none => some (['.', a, b, c], rest)
    else none
  | _ => none

/-- Digit prefix for the second `_NUM_TOKEN_RE` alternative. -/
def withDigitsG (ds : List Char) (rest : List Char) : Option (List Char × List Char) :=
  (groupsPlus rest).map (fun p => (ds ++ p.1, p.2))

/-- `\d{1,3}(?:\.\d{3})+`: greedy digit count 3, then 2, then 1. -/
def groupIntDigits : List Char → Option (List Char × List Char)
  | d1 :: d2 :: d3 :: r3 =>
    if d1.isDigit then
      if d2.isDigit then
        if d3.isDigit then
          withDigitsG [d1, d2, d3] r3 <|> withDigitsG [d1, d2] (d3 :: r3) <|>
            withDigitsG [d1] (d2 :: d3 :: r3)
        else withDigitsG [d1, d2] (d3 :: r3) <|> withDigitsG [d1] (d2 :: d3 :: r3)
      else withDigitsG [d1] (d2 :: d3 :: r3)
    else none
  | [d1, d2] =>
    if d1.isDigit then
      if d2.isDigit then withDigitsG [d1, d2] [] <|> withDigitsG [d1] [d2]
      else withDigitsG [d1] [d2]
    else none
  | [d1] => if d1.isDigit then withDigitsG [d1] [] else none
  | [] => none

/-- Second alternative of `_NUM_TOKEN_RE`: `-?\d{1,3}(?:\.\d{3})+`. -/
def matchGroupIntAt (cs : List Char) : Option (List Char × List Char) :=
  match cs with
  | c :: rest =>
    if c = '-' then (groupIntDigits rest).map (fun p => ('-' :: p.1, p.2))
    else groupIntDigits (c :: rest)
  | [] => none

/-- Third alternative of `_NUM_TOKEN_RE`: `\d+` (greedy, no sign). -/
def matchPlainDigitsAt (cs : List Char) : Option (List Char × List Char) :=
  let ds := cs.takeWhile Char.isDigit
  if ds.isEmpty then none else some (ds, cs.drop ds.length)

/-- One match attempt of
`_NUM_TOKEN_RE = -?\d{1,3}(?:\.\d{3})*(?:,\d{2})|-?\d{1,3}(?:\.\d{3})+|\d+`
(metas.py:27): alternatives tried left to right at the same start. -/
def matchNumTokenAt (cs : List Char) : Option (List Char × List Char) :=
  matchAmountAt cs <|> matchGroupIntAt cs <|> matchPlainDigitsAt cs

theorem groupsPlus_append_aux :
    ∀ (n : Nat) (cs t r : List Char), cs.length ≤ n → groupsPlus cs = some (t, r) →
      cs = t ++ r ∧ 4 ≤ t.length := by
  intro n
  induction n with
  | zero =>
    intro cs t r hl h
    have hcs : cs = [] := List.eq_nil_of_length_eq_zero (by omega)
    subst hcs
    rw [groupsPlus.eq_def] at h
    simp at h
  | succ n ih =>
    intro cs t r hl h
    rw [groupsPlus.eq_def] at h
    split at h
    · rename_i a b c rest
      split at h
      · cases hmt : groupsPlus rest with
        | none =>
          rw [hmt] at h
          simp only [Option.some.injEq, Prod.mk.injEq] at h
          obtain ⟨ht, hr⟩ := h
          subst ht
          subst hr
          simp
        | some q =>
          obtain ⟨t2, r2⟩ := q
          rw [hmt] at h
          simp only [Option.some.injEq, Prod.mk.injEq] at h
          obtain ⟨ht, hr⟩ := h
          subst ht
          subst hr
          obtain ⟨e1, e2⟩ := ih rest t2 r2 (by simp at hl; omega) hmt
          refine ⟨?_, ?_⟩
          · rw [e1]
            simp
          · simp only [List.length_cons]
            omega
      · cases h
    · cases h

theorem groupsPlus_append {cs t r : List Char} (h : groupsPlus cs = some (t, r)) :
    cs = t ++ r ∧ 4 ≤ t.length :=
  groupsPlus_append_aux cs.length cs t r (le_refl _) h

theorem withDigitsG_append {ds rest t r : List Char}
    (h : withDigitsG ds rest = some (t, r)) :
    ds ++ rest = t ++ r ∧ ds.length + 4 ≤ t.length := by
  simp only [withDigitsG, Option.map_eq_some'] at h
  obtain ⟨⟨t', r'⟩, hmt, heq⟩ := h
  obtain ⟨e1, e2⟩ := groupsPlus_append hmt
  cases heq
  constructor
  · rw [e1]
    simp
  · simp
    omega

theorem withDigitsG_concl {ds rest t r : List Char} (h : withDigitsG ds rest = some (t, r))
    (hds : 1 ≤ ds.length) (cs : List Char) (hcs : ds ++ rest = cs) :
    cs = t ++ r ∧ 1 ≤ t.length := by
  obtain ⟨e1, e2⟩ := withDigitsG_append h
  constructor
  · rw [← hcs, e1]
  · omega

theorem groupIntDigits_append {cs t r : List Char}
    (h : groupIntDigits cs = some (t, r)) : cs = t ++ r ∧ 1 ≤ t.length := by
  match cs, h with
  | d1 :: d2 :: d3 :: r3, h =>
    simp only [groupIntDigits] at h
    split at h
    · split at h
      · split at h
        · rcases orElse_eq_some h with h1 | h1
          · exact withDigitsG_concl h1 (by simp) _ (by simp)
          · rcases orElse_eq_some h1 with h2 | h2
            · exact withDigitsG_concl h2 (by simp) _ (by simp)
            · exact withDigitsG_concl h2 (by simp) _ (by simp)
        · rcases orElse_eq_some h with h1 | h1
          · exact withDigitsG_concl h1 (by simp) _ (by simp)
          · exact withDigitsG_concl h1 (by simp) _ (by simp)
      · exact withDigitsG_concl h (by simp) _ (by simp)
    · cases h
  | [d1, d2], h =>
    simp only [groupIntDigits] at h
    split at h
    · split at h
      · rcases orElse_eq_some h with h1 | h1
        · exact withDigitsG_concl h1 (by simp) _ (by simp)
        · exact withDigitsG_concl h1 (by simp) _ (by simp)
      · exact withDigitsG_concl h (by simp) _ (by simp)
    · cases h
  | [d1], h =>
    simp only [groupIntDigits] at h
    split at h
    · exact withDigitsG_concl h (by simp) _ (by simp)
    · cases h
  | [], h => cases h

theorem matchNumTokenAt_lt {cs t r : List Char}
    (h : matchNumTokenAt cs = some (t, r)) : r.length < cs.length := by
  rcases orElse_eq_some h with h1 | h1
  · exact matchAmountAt_lt h1
  · rcases orElse_eq_some h1 with h2 | h2
    · have hb : cs = t ++ r ∧ 1 ≤ t.length := by
        match cs, h2 with
        | c :: rest, h2 =>
          simp only [matchGroupIntAt] at h2
          split at h2
          · rename_i hc
            subst hc
            simp only [Option.map_eq_some'] at h2
            obtain ⟨⟨t', r'⟩, hds, heq⟩ := h2
            obtain ⟨e1, e2⟩ := groupIntDigits_append hds
            cases heq
            refine ⟨by simp [e1], by simp⟩
          · exact groupIntDigits_append h2
        | [], h2 => cases h2
      have : cs.length = t.length + r.length := by rw [hb.1]; simp
      omega
    · simp only [matchPlainDigitsAt] at h2
      split at h2
      · cases h2
      · rename_i hne
        simp only [Option.some.injEq, Prod.mk.injEq] at h2
        obtain ⟨ht, hr⟩ := h2
        subst hr
        have h1le : 1 ≤ (cs.takeWhile Char.isDigit).length := by
          cases he : cs.takeWhile Char.isDigit with
          | nil => rw [he] at hne; simp at hne
          | cons x xs => simp [he]
        have hle : (cs.takeWhile Char.isDigit).length ≤ cs.length :=
          (List.takeWhile_prefix _).length_le
        simp only [List.length_drop]
        omega

/-- `_NUM_TOKEN_RE.findall`: left-to-right non-overlapping scan (fuel as in
`scanAmountsF`; every step consumes a character, see `matchNumTokenAt_lt`). -/
def scanNumTokensF : Nat → List Char → List (List Char)
  | 0, _ => []
  | fuel + 1, cs =>
    match matchNumTokenAt cs with
    | some (m, rest) => m :: scanNumTokensF fuel rest
    | none =>
      match cs with
      | [] => []
      | _ :: t => scanNumTokensF fuel t

def scanNumTokens (cs : List Char) : List (List Char) := scanNumTokensF cs.length cs

/-- Value of `float(m.replace(".", ""))`; the fallback 0 is unreachable for
`_NUM_TOKEN_RE` matches without a comma. -/
def floatValue (s : String) : ℚ := (pyFloatL s.data).getD 0

/-- `_parse_numeric_tokens` (metas.py:30): tokens with a comma go through
`parse_amount_ar`, the rest through `float` after removing dots. -/
def parseNumericTokens (s : String) : List ℚ :=
  (scanNumTokens s.data).map (fun m =>
    if m.contains ',' then amountValue (String.mk m)
    else floatValue (String.mk (m.filter (fun c => c ≠ '.'))))

/-- `_PROG_HEADER_RE.match(line)` (metas.py:22): `^\s*(\d{10})\s+(\d+)\s+(.+)$`. -/
def matchProgHeader (cs : List Char) : Option (String × String × String) :=
  let r0 := cs.dropWhile isReWs
  let ds := r0.takeWhile Char.isDigit
  if ds.length = 10 then
    let r1 := r0.drop 10
    let s1 := (r1.takeWhile isReWs).length
    if s1 = 0 then none
    else
      let r2 := r1.drop s1
      let d2 := r2.takeWhile Char.isDigit
      if d2.isEmpty then none
      else
        let r3 := r2.drop d2.length
        let s2 := (r3.takeWhile isReWs).length
        if s2 = 0 then none
        else
          firstSome (descRange s2 1) fun j =>
            let rest := r3.drop j
            if rest.isEmpty then none
            else some (String.mk ds, String.mk d2, String.mk rest)
  else none

/-- `_META_ITEM_RE.match(line)` (metas.py:23): `^\s*(\d+)\b`; returns the
matched prefix (leading whitespace plus the digit run). -/
def matchMetaItem (cs : List Char) : Option (List Char) :=
  let ws := cs.takeWhile isReWs
  let r := cs.drop ws.length
  let ds := r.takeWhile Char.isDigit
  if ds.isEmpty then none
  else
    match (r.drop ds.length).head? with
    | some c => if isWordChar c then none else some (ws ++ ds)
    | none => some (ws ++ ds)

/-- `_UNIT_RE.search(meta_text)` (metas.py:24): `\(([^)]+)\)\s*$`; leftmost
`(` whose nonempty `)`-free content is closed and followed only by
whitespace; returns the match start and the captured unit. -/
def unitSearchAux : List Char → Nat → Option (Nat × List Char)
  | [], _ => none
  | '(' :: t, i =>
    let content := t.takeWhile (fun c => c ≠ ')')
    let after := t.drop content.length
    if 1 ≤ content.length then
      match after with
      | ')' :: tail =>
        if tail.all isReWs then some (i, content) else unitSearchAux t (i + 1)
      | _ => unitSearchAux t (i + 1)
    else unitSearchAux t (i + 1)
  | _ :: t, i => unitSearchAux t (i + 1)

def unitSearch (cs : List Char) : Option (Nat × List Char) := unitSearchAux cs 0

/-- A goal row as built by `parse_metas_from_text` (metas.py:95-104). -/
structure MetaRowP where
  Juri_Codigo : String
  Prog_Codigo : String
  Prog_Nombre : Option String
  Meta_Nombre : String
  Meta_Unidad : Option String
  Meta_Anual : Option ℚ
  Meta_Parcial : Option ℚ
  Meta_Ejecutado : Option ℚ
  Meta_Observacion : Option String
deriving DecidableEq, Repr

/-- The numeric-column assignment of metas.py:107-110 and 115-118: with at
least three tokens, annual is the 4th-from-last token (3rd-from-last when
only three), partial the 3rd-from-last, executed the 2nd-from-last; the last
token is never used when a 4th exists. -/
def metaAssign (nums : List ℚ) : Option (ℚ × ℚ × ℚ) :=
  if 3 ≤ nums.length then
    some (if 4 ≤ nums.length then nums.getD (nums.length - 4) 0
          else nums.getD (nums.length - 3) 0,
          nums.getD (nums.length - 3) 0,
          nums.getD (nums.length - 2) 0)
  else none

/-- Scanner state of `parse_metas_from_text`. -/
structure MetaState where
  inSection : Bool
  stopped : Bool
  juri : Option String
  progCode : Option String
  progName : Option String
  pending : Option MetaRowP
  rows : List MetaRowP
deriving DecidableEq, Repr

def metaInit : MetaState := ⟨false, false, none, none, none, none, []⟩

/-- `_SECTION_END_KEYWORDS` of metas.py:15. -/
def metasEndKeywords : List String :=
  ["r.a.f.a.m.", "hoja:", "estado de situacion patrimonial",
   "movimientos de tesoreria"]

/-- One line of `parse_metas_from_text` (metas.py:53-121). -/
def metaStep (st : MetaState) (raw : String) : MetaState :=
  if st.stopped then st
  else
    let line := normalize_name raw
    if line.isEmpty then st
    else
      let low := normalize_key line
      if !st.inSection then
        if strContains low "evolucion de las principales metas de programas" then
          { st with inSection := true }
        else st
      else if metasEndKeywords.any (fun k => strContains low k) then
        { st with stopped := true }
      else if strContains low "programado" && strContains low "diferencia" then st
      else if low = "departamento ejecutivo" || low = "h.c.d." then st
      else
        match matchProgHeader line.data with
        | some (juriCode, progCode, rest) =>
          { st with juri := some juriCode, progCode := some progCode,
                    progName := some (normalize_name rest), pending := none }
        | none =>
          if st.juri.isNone || st.progCode.isNone then st
          else
            let nums := parseNumericTokens line
            match matchMetaItem line.data with
            | some consumed =>
              let metaText0 := String.mk (pyStrip (line.data.drop consumed.length))
              let unitText : Option String × String :=
                match unitSearch metaText0.data with
                | some (i, content) =>
                  (some (normalize_name (String.mk content)),
                   normalize_name (String.mk (metaText0.data.take i)))
                | none => (none, metaText0)
              let pm : MetaRowP :=
                ⟨st.juri.getD "", st.progCode.getD "", st.progName,
                 unitText.2, unitText.1, none, none, none, none⟩
              match metaAssign nums with
              | some v =>
                { st with pending := none,
                          rows := st.rows ++
                            [{ pm with Meta_Anual := some v.1, Meta_Parcial := some v.2.1,
                                       Meta_Ejecutado := some v.2.2 }] }
              | none => { st with pending := some pm }
            | none =>
              match st.pending with
              | some pm =>
                match metaAssign nums with
                | some v =>
                  { st with pending := none,
                            rows := st.rows ++
                              [{ pm with Meta_Anual := some v.1, Meta_Parcial := some v.2.1,
                                         Meta_Ejecutado := some v.2.2 }] }
                | none => st
              | none => st

/-- `parse_metas_from_text` over pre-split lines. -/
def parse_metas_lines (lines : List String) : List MetaRowP × List String :=
  let st := lines.foldl metaStep metaInit
  (st.rows, if st.rows.isEmpty then ["No se encontraron metas."] else [])

/-- `parse_metas_from_text` (metas.py:40). -/
def parse_metas_from_text (text : String) : List MetaRowP × List String :=
  parse_metas_lines (splitLines text)

/-! ### Dictionaries and Python truthiness -/

/-- A Python dict built by successive insertions: lookup returns the value of
the last insertion for the key. -/
def dictGet {κ ν : Type} [DecidableEq κ] (m : List (κ × ν)) (k : κ) : Option ν :=
  (m.reverse.find? (fun e => e.1 = k)).map (fun e => e.2)

/-- Truthiness of an optional string (`None` and `""` are falsy). -/
def optStrTruthy : Option String → Bool
  | some s => !s.isEmpty
  | none => false

/-- Truthiness of an optional id (`None` and `0` are falsy). -/
def optNatTruthy : Option Nat → Bool
  | some i => decide (i ≠ 0)
  | none => false

/-- Python `f"{x}"` of an optional string (`None` prints as `"None"`). -/
def pyShow : Option String → String
  | some s => s
  | none => "None"

/-! ### runner.py: jurisdiction map and program/goal resolution -/

/-- A fetched `bd_jurisdiccion` row (runner.py step 10). -/
structure JuriDbRow where
  Juri_Codigo : Option String
  Juri_Nombre : Option String
  ID_Jurisdiccion : Nat
deriving DecidableEq, Repr

/-- runner.py:148-158: `juri_map[code] = id` when the code is truthy, else
`juri_map[name] = id` when the name is truthy. -/
def buildRunnerJuriMap (db : List JuriDbRow) : List (String × Nat) :=
  db.foldl (fun m j =>
    if optStrTruthy j.Juri_Codigo then m ++ [(j.Juri_Codigo.getD "", j.ID_Jurisdiccion)]
    else if optStrTruthy j.Juri_Nombre then m ++ [(j.Juri_Nombre.getD "", j.ID_Jurisdiccion)]
    else m) []

/-- runner.py:163-169: resolve a parsed program row against `juri_map`
(code first; name when the code lookup is falsy). -/
def runnerResolveJuri (m : List (String × Nat)) (p : ProgRowP) : Option Nat :=
  let viaCode :=
    if optStrTruthy p.Juri_Codigo then dictGet m (p.Juri_Codigo.getD "") else none
  if optNatTruthy viaCode then viaCode
  else if optStrTruthy p.Juri_Nombre then dictGet m (p.Juri_Nombre.getD "") else viaCode

/-- A `bd_programas` row as inserted by the runner (Juri fields popped,
`ID_Jurisdiccion` attached). -/
structure RunnerProgRow where
  ID_Jurisdiccion : Nat
  Prog_Codigo : Option String
  Prog_Nombre : String
  Prog_Vigente : ℚ
  Prog_Preventivo : ℚ
  Prog_Compromiso : ℚ
  Prog_Devengado : ℚ
  Prog_Pagado : ℚ
deriving DecidableEq, Repr

/-- One iteration of the runner program loop (runner.py:162-177). -/
def runnerProgStep (m : List (String × Nat)) (acc : List RunnerProgRow × List String)
    (p : ProgRowP) : List RunnerProgRow × List String :=
  match runnerResolveJuri m p with
  | some juriId =>
    if juriId ≠ 0 then
      (acc.1 ++ [⟨juriId, p.Prog_Codigo, p.Prog_Nombre, p.Prog_Vigente, p.Prog_Preventivo,
                  p.Prog_Compromiso, p.Prog_Devengado, p.Prog_Pagado⟩], acc.2)
    else
      (acc.1, acc.2 ++ ["Programa sin jurisdiccion: \x27" ++ p.Prog_Nombre ++ "\x27"])
  | none =>
    (acc.1, acc.2 ++ ["Programa sin jurisdiccion: \x27" ++ p.Prog_Nombre ++ "\x27"])

/-- runner.py:161-177: keep resolvable programs with their jurisdiction id,
drop the rest with a warning. -/
def runnerMapProgramas (ps : List ProgRowP) (m : List (String × Nat)) :
    List RunnerProgRow × List String :=
  ps.foldl (runnerProgStep m) ([], [])

/-- A fetched `bd_programas` row (runner.py step 15). -/
structure ProgDbRow where
  ID_Programa : Nat
  ID_Jurisdiccion : Nat
  Prog_Codigo : Option String
  Prog_Nombre : Option String
deriving DecidableEq, Repr

/-- runner.py:242-246: first jurisdiction code in `juri_map` (iteration =
insertion order) whose id equals `juri_id`. -/
def runnerJuriCodeOf (m : List (String × Nat)) (juriId : Nat) : Option String :=
  (m.find? (fun e => e.2 = juriId)).map (fun e => e.1)

/-- runner.py:235-251: the `(juri_code, prog_code) → id` and
`(juri_code, prog_name) → id` lookup dicts. -/
def runnerBuildProgMaps (progDb : List ProgDbRow) (m : List (String × Nat)) :
    List ((String × String) × Nat) × List ((String × String) × Nat) :=
  progDb.foldl (fun acc p =>
    let progCode := String.mk (pyStrip (p.Prog_Codigo.getD "").data)
    let progName := String.mk (asciiLower (pyStrip (p.Prog_Nombre.getD "").data))
    match runnerJuriCodeOf m p.ID_Jurisdiccion with
    | some juriCode =>
      if juriCode.isEmpty then acc
      else
        let acc1 := if progCode.isEmpty then acc.1
          else acc.1 ++ [((juriCode, progCode), p.ID_Programa)]
        let acc2 := if progName.isEmpty then acc.2
          else acc.2 ++ [((juriCode, progName), p.ID_Programa)]
        (acc1, acc2)
    | none => acc) ([], [])

/-- A `bd_metas` row as inserted by the runner (runner.py:267-277). -/
structure RunnerMetaRow where
  ID_Programa : Nat
  Meta_Nombre : String
  Meta_Unidad : Option String
  Meta_Anual : Option ℚ
  Meta_Parcial : Option ℚ
  Meta_Ejecutado : Option ℚ
  Meta_Observacion : Option String
deriving DecidableEq, Repr

/-- Resolution of one parsed goal (runner.py:254-261). -/
def runnerResolveMeta (byKey byName : List ((String × String) × Nat))
    (mr : MetaRowP) : Option Nat :=
  let juriCode := String.mk (pyStrip mr.Juri_Codigo.data)
  let progCode := String.mk (pyStrip mr.Prog_Codigo.data)
  let progName := String.mk (asciiLower (pyStrip (mr.Prog_Nombre.getD "").data))
  let viaKey :=
    if !juriCode.isEmpty && !progCode.isEmpty then dictGet byKey (juriCode, progCode)
    else none
  if optNatTruthy viaKey then viaKey
  else if !juriCode.isEmpty && !progName.isEmpty then dictGet byName (juriCode, progName)
  else viaKey

/-- One iteration of the runner goal loop (runner.py:253-277). -/
def runnerMetaStep (byKey byName : List ((String × String) × Nat))
    (acc : List RunnerMetaRow × List String) (mr : MetaRowP) :
    List RunnerMetaRow × List String :=
  let progId := runnerResolveMeta byKey byName mr
  if optNatTruthy progId then
    (acc.1 ++ [⟨progId.getD 0, mr.Meta_Nombre, mr.Meta_Unidad, mr.Meta_Anual,
                mr.Meta_Parcial, mr.Meta_Ejecutado, mr.Meta_Observacion⟩], acc.2)
  else
    (acc.1, acc.2 ++ ["No se encontro programa para meta: " ++
      String.mk (pyStrip mr.Juri_Codigo.data) ++ " " ++
      String.mk (pyStrip mr.Prog_Codigo.data) ++ " " ++ mr.Meta_Nombre])

/-- runner.py:253-277: resolve each parsed goal against the program maps
(`(juri, code)` then `(juri, lowered name)`); an unresolvable goal only
leaves a warning - it is appended to no output collection. -/
def runnerMapMetas (metas : List MetaRowP)
    (byKey byName : List ((String × String) × Nat)) :
    List RunnerMetaRow × List String :=
  metas.foldl (runnerMetaStep byKey byName) ([], [])

/-! ### single_shot/pipeline.py: mapping and goals second pass -/

/-- `_norm_text` (single_shot/pipeline.py:45): NFKD minus combining marks,
strip, upper-case, collapse whitespace (the fold table of `nfkdAscii` plays
the role of NFKD + combining-mark removal). -/
def normTextSS (value : Option String) : String :=
  match value with
  | none => ""
  | some s =>
    if s.isEmpty then ""
    else
      let folded := String.mk (s.data.flatMap nfkdAscii)
      String.intercalate " "
        ((splitWs (folded.data.map Char.toUpper)).map String.mk)

/-- `_normalize_movtes_tipo` (single_shot/pipeline.py:189): tri-state
summary type of a treasury movement label; `saldo final` and unrecognized
labels give `None`. -/
def normalize_movtes_tipo (value : Option String) : Option String :=
  if !optStrTruthy value then none
  else
    let key := String.mk (asciiLower (normTextSS value).data)
    if strContains key "saldo" && strContains key "final" then none
    else if strContains key "saldo" && strContains key "inicial" then some "Saldo Inicial"
    else if strContains key "ingreso" then some "Ingreso"
    else if strContains key "gasto" || strContains key "egreso" then some "Egreso"
    else none

/-- A `bd_programas` item of the single-shot LLM payload. -/
structure SSProgItem where
  Juri_Codigo : Option String
  Prog_Codigo : Option String
  Prog_Nombre : Option String
  Prog_Vigente : Option ℚ
  Prog_Preventivo : Option ℚ
  Prog_Compromiso : Option ℚ
  Prog_Devengado : Option ℚ
  Prog_Pagado : Option ℚ
deriving DecidableEq, Repr

/-- A mapped single-shot program row (`_map_programas` output). -/
structure SSProgRow where
  ID_Jurisdiccion : Nat
  Prog_Codigo : Option String
  Prog_Nombre : Option String
  Prog_Vigente : Option ℚ
  Prog_Preventivo : Option ℚ
  Prog_Compromiso : Option ℚ
  Prog_Devengado : Option ℚ
  Prog_Pagado : Option ℚ
deriving DecidableEq, Repr

/-- single_shot/pipeline.py:378: `{j["Juri_Codigo"]: j["ID_Jurisdiccion"] for
j in juri_db if j.get("Juri_Codigo")}`. -/
def buildSSJuriMap (db : List JuriDbRow) : List (String × Nat) :=
  db.foldl (fun m j =>
    if optStrTruthy j.Juri_Codigo then m ++ [(j.Juri_Codigo.getD "", j.ID_Jurisdiccion)]
    else m) []

/-- One iteration of `_map_programas` (single_shot/pipeline.py:107-124). -/
def ssProgStep (juriMap : List (String × Nat)) (acc : List SSProgRow × List String)
    (item : SSProgItem) : List SSProgRow × List String :=
  let juriCodigo := (item.Juri_Codigo).getD ""
  let juriId := dictGet juriMap (String.mk (pyStrip juriCodigo.data))
  if optNatTruthy juriId then
    (acc.1 ++ [⟨juriId.getD 0, item.Prog_Codigo, item.Prog_Nombre, item.Prog_Vigente,
                item.Prog_Preventivo, item.Prog_Compromiso, item.Prog_Devengado,
                item.Prog_Pagado⟩], acc.2)
  else
    (acc.1, acc.2 ++ ["Programa sin jurisdiccion: " ++ pyShow item.Prog_Nombre])

/-- `_map_programas` (single_shot/pipeline.py:101): resolve each payload
program by its (stripped) jurisdiction code; unresolved ones are dropped
with a warning and produce no row. -/
def ssMapProgramas (items : List SSProgItem) (juriMap : List (String × Nat)) :
    List SSProgRow × List String :=
  items.foldl (ssProgStep juriMap) ([], [])

/-- A `bd_metas` item of the single-shot LLM payload. -/
structure SSMetaItem where
  Juri_Codigo : Option String
  Prog_Codigo : Option String
  Prog_Nombre : Option String
  Meta_Nombre : Option String
  Meta_Unidad : Option String
  Meta_Anual : Option ℚ
  Meta_Parcial : Option ℚ
  Meta_Ejecutado : Option ℚ
deriving DecidableEq, Repr

/-- A mapped single-shot goal row (`_map_metas` output). -/
structure SSMetaRow where
  ID_Programa : Nat
  Meta_Nombre : Option String
  Meta_Unidad : Option String
  Meta_Anual : Option ℚ
  Meta_Parcial : Option ℚ
  Meta_Ejecutado : Option ℚ
  Meta_Observacion : Option String
deriving DecidableEq, Repr

/-- The resolution key of `_map_metas` (single_shot/pipeline.py:297-299):
`"{juri}::{code}"` when both are nonempty, the bare code otherwise. -/
def ssMetaKey (item : SSMetaItem) : String :=
  let juri := String.mk (pyStrip ((item.Juri_Codigo).getD "").data)
  let code := String.mk (pyStrip ((item.Prog_Codigo).getD "").data)
  if !juri.isEmpty && !code.isEmpty then juri ++ "::" ++ code else code

/-- One iteration of `_map_metas` (single_shot/pipeline.py:296-315). -/
def ssMetaStep (mapping : List (String × Nat))
    (acc : List SSMetaRow × List String × List SSMetaItem) (item : SSMetaItem) :
    List SSMetaRow × List String × List SSMetaItem :=
  let progId := dictGet mapping (ssMetaKey item)
  if optNatTruthy progId then
    (acc.1 ++ [⟨progId.getD 0, item.Meta_Nombre, item.Meta_Unidad, item.Meta_Anual,
                item.Meta_Parcial, item.Meta_Ejecutado, none⟩], acc.2.1, acc.2.2)
  else
    (acc.1, acc.2.1 ++ ["Meta sin programa: " ++ pyShow item.Meta_Nombre],
     acc.2.2 ++ [item])

/-- `_map_metas` (single_shot/pipeline.py:289): resolved goals become rows;
a goal whose key is not in the program mapping is appended to the
`unresolved` list (returned separately) with a warning. -/
def ssMapMetas (items : List SSMetaItem) (mapping : List (String × Nat)) :
    List SSMetaRow × List String × List SSMetaItem :=
  items.foldl (ssMetaStep mapping) ([], [], [])

/-- single_shot/pipeline.py:391-394: unresolved goals are routed to the
staging table exactly when there are any and a staging table is
configured. -/
def ssStagingRouted (unresolved : List SSMetaItem) (stagingTable : Option String) : Bool :=
  !unresolved.isEmpty && optStrTruthy stagingTable

/-- The goals-only second pass decision of `run_single_shot`
(single_shot/pipeline.py:357-371): when the first pass returned fewer than
50 goals the goals-only extraction runs, and its list replaces the payload
goals exactly when it is strictly larger.  Returns (final goals, whether the
second pass ran, appended warnings). -/
def metasSecondPass (payloadMetas : List SSMetaItem) (metasOnlyResult : List SSMetaItem) :
    List SSMetaItem × Bool × List String :=
  let metasCount := payloadMetas.length
  if metasCount < 50 then
    let metasList := metasOnlyResult
    if metasCount < metasList.length then
      (metasList, true, ["Metas recargadas en segunda pasada (metas only)."])
    else (payloadMetas, true, [])
  else (payloadMetas, false, [])

/-! ### The LLM retry loop

`call_structured_output` (src/ingest/llm_utils.py:43-97) and
`extract_pdf_single_shot` / `extract_metas_only`
(src/single_shot/openai_extract.py:304-365, 380-440) share this skeleton:
`for attempt in range(max_retries + 1): try: ... except: if attempt <
max_retries: time.sleep(retry_sleep_sec * (attempt + 1)) else: raise
RuntimeError(f"LLM fallo despues de reintentos: {last_error}") from
last_error`.  The body of one attempt is abstracted as a function from the
attempt index to a result or an exception; the model returns the final
outcome together with the total slept delay. -/

/-- The wrapped error raised after exhausting retries, carrying the last
underlying cause. -/
def wrapLLMError (cause : String) : String :=
  "LLM fallo despues de reintentos: " ++ cause

/-- The retry loop: `attempt` is the current 0-based index, `remaining` the
number of retries still allowed (`max_retries - attempt`); a successful
attempt returns immediately, a failed one sleeps
`retry_sleep_sec * (attempt + 1)` and retries while retries remain, else
raises the wrapped error. -/
def retryLoop {P : Type} (f : Nat → Except String P) (retrySleepSec : ℚ)
    (attempt : Nat) : Nat → Except String P × ℚ
  | 0 =>
    match f attempt with
    | .ok p => (.ok p, 0)
    | .error e => (.error (wrapLLMError e), 0)
  | r + 1 =>
    match f attempt with
    | .ok p => (.ok p, 0)
    | .error e =>
      ((retryLoop f retrySleepSec (attempt + 1) r).1,
       retrySleepSec * ((attempt : ℚ) + 1) + (retryLoop f retrySleepSec (attempt + 1) r).2)

/-- `call_structured_output` / `extract_pdf_single_shot` retry behaviour:
run attempts `0..max_retries`, sleeping `retry_sleep_sec * (attempt + 1)`
after each failed non-final attempt; return the first success or the
wrapped last error, together with the total delay slept. -/
def call_structured_output {P : Type} (f : Nat → Except String P)
    (maxRetries : Nat) (retrySleepSec : ℚ) : Except String P × ℚ :=
  retryLoop f retrySleepSec 0 maxRetries

deriving instance DecidableEq for Except

/-! ## Claim theorems -/

/-- C5 counterexample: a goal line with the leading item code and exactly
three numeric columns `100,00 50,00 30,00`.  The parser assigns
annual = 1 (the item code), partial = 100, executed = 50 - not the first
three columns (100, 50, 30) in order as the claim states. -/
def c5Doc : String :=
  "EVOLUCION DE LAS PRINCIPALES METAS DE PROGRAMAS\n" ++
  "1234567890 16 Salud Comunitaria\n" ++
  "1 Vacunas aplicadas (dosis) 100,00 50,00 30,00"

theorem C5_counterexample :
    ((parse_metas_from_text c5Doc).1.map
      (fun r => (r.Meta_Anual, r.Meta_Parcial, r.Meta_Ejecutado))) =
      [(some 1, some 100, some 50)] ∧
    ¬ ((parse_metas_from_text c5Doc).1.map
        (fun r => (r.Meta_Anual, r.Meta_Parcial, r.Meta_Ejecutado))) =
      [(some 100, some 50, some 30)] := by
  constructor
  · decide
  · decide

/-- C5 amended: the goals parser feeds every numeric token of the line -
including the leading goal item code - to the column assignment, which takes
the 4th-, 3rd- and 2nd-from-last tokens as annual/partial/executed and
discards the last token (3rd-from-last duplicated into annual when only
three tokens exist).  Hence with the item code plus the four columns
annual, partial, executed, difference, the first three columns are taken in
order and the difference is discarded; with the item code plus only three
columns, annual receives the item code and the third column is discarded. -/
theorem C5_meta_columns (code v1 v2 v3 v4 : ℚ) :
    metaAssign [code, v1, v2, v3, v4] = some (v1, v2, v3) ∧
    metaAssign [code, v1, v2, v3] = some (code, v1, v2) ∧
    (∀ nums : List ℚ, nums.length < 3 → metaAssign nums = none) ∧
    ((parse_metas_from_text (c5Doc ++ " 20,00")).1.map
      (fun r => (r.Meta_Anual, r.Meta_Parcial, r.Meta_Ejecutado))) =
      [(some 100, some 50, some 30)] := by
  refine ⟨?_, ?_, ?_, ?_⟩
  · simp [metaAssign]
  · simp [metaAssign]
  · intro nums h
    simp [metaAssign]
    omega
  · decide

theorem C5_meta_columns_witness :
    metaAssign [1, 100, 50, 30, 20] = some (100, 50, 30) ∧
    metaAssign [1, 100, 50, 30] = some (1, 100, 50) ∧
    metaAssign [1, 2] = none :=
  ⟨(C5_meta_columns 1 100 50 30 20).1, (C5_meta_columns 1 100 50 30 20).2.1,
   (C5_meta_columns 1 100 50 30 20).2.2.1 [1, 2] (by decide)⟩

theorem retryLoop_ok {P : Type} {f : Nat → Except String P} {s : ℚ} {a : Nat}
    {p : P} (rem : Nat) (h : f a = .ok p) : retryLoop f s a rem = (.ok p, 0) := by
  cases rem with
  | zero =>
    conv_lhs => rw [retryLoop]
    rw [h]
  | succ r =>
    conv_lhs => rw [retryLoop]
    rw [h]

theorem retryLoop_zero_err {P : Type} {f : Nat → Except String P} {s : ℚ} {a : Nat}
    {e : String} (h : f a = .error e) :
    retryLoop f s a 0 = (.error (wrapLLMError e), 0) := by
  conv_lhs => rw [retryLoop]
  rw [h]

theorem retryLoop_succ_err {P : Type} {f : Nat → Except String P} {s : ℚ} {a r : Nat}
    {e : String} (h : f a = .error e) :
    retryLoop f s a (r + 1) =
      ((retryLoop f s (a + 1) r).1,
       s * ((a : ℚ) + 1) + (retryLoop f s (a + 1) r).2) := by
  conv_lhs => rw [retryLoop]
  rw [h]

/-- C6: the retry loop of `call_structured_output` /
`extract_pdf_single_shot`.  (a) With `max_retries = 2`, failures at attempts
0 and 1 and a success at attempt 2, it returns the successful payload and
the total slept delay is `retry_sleep_sec * 1 + retry_sleep_sec * 2`.
(b) When every attempt `0..max_retries` fails, it returns a single wrapped
error carrying the last underlying cause. -/
theorem C6_retry {P : Type} (f : Nat → Except String P) (s : ℚ) (p : P)
    (e0 e1 : String)
    (h0 : f 0 = .error e0) (h1 : f 1 = .error e1) (h2 : f 2 = .ok p) :
    call_structured_output f 2 s = (.ok p, s * 1 + s * 2) ∧
    (∀ (g : Nat → Except String P) (err : Nat → String) (mr : Nat),
      (∀ i, i ≤ mr → g i = .error (err i)) →
      (call_structured_output g mr s).1 = .error (wrapLLMError (err mr))) := by
  constructor
  · show retryLoop f s 0 2 = (.ok p, s * 1 + s * 2)
    rw [retryLoop_succ_err h0, retryLoop_succ_err h1, retryLoop_ok 0 h2]
    dsimp only
    rw [Prod.mk.injEq]
    refine ⟨rfl, by push_cast; ring⟩
  · intro g err mr hall
    have aux : ∀ (rem att : Nat), (∀ i, att ≤ i → i ≤ att + rem → g i = .error (err i)) →
        (retryLoop g s att rem).1 = .error (wrapLLMError (err (att + rem))) := by
      intro rem
      induction rem with
      | zero =>
        intro att h
        rw [retryLoop_zero_err (h att (le_refl _) (by omega))]
        simp
      | succ r ih =>
        intro att h
        rw [retryLoop_succ_err (h att (le_refl _) (by omega))]
        have := ih (att + 1) (fun i hi1 hi2 => h i (by omega) (by omega))
        rw [show att + 1 + r = att + (r + 1) from by omega] at this
        exact this
    have := aux mr 0 (fun i h1 h2 => hall i (by omega))
    simpa using this

theorem C6_retry_witness :
    call_structured_output (fun i => if i < 2 then Except.error "boom" else Except.ok 42) 2
        (5 / 2 : ℚ) = (.ok 42, (5 / 2 : ℚ) * 1 + (5 / 2 : ℚ) * 2) ∧
    (call_structured_output (fun _ => (Except.error "last" : Except String Nat)) 3
        (1 : ℚ)).1 = .error (wrapLLMError "last") := by
  have h := C6_retry (fun i => if i < 2 then Except.error "boom" else Except.ok (42 : Nat))
    (5 / 2 : ℚ) 42 "boom" "boom" rfl rfl rfl
  exact ⟨h.1, h.2 (fun _ => Except.error "last") (fun _ => "last") 3 (fun i _ => rfl)⟩

/-- C7: the goals-only second pass of `run_single_shot` runs exactly when
the first pass returned fewer than 50 goals, and its list replaces the
payload goals (wholesale, never merged) exactly when it is strictly larger;
otherwise the original goals stand. -/
theorem C7_goals_second_pass (pm er : List SSMetaItem) :
    ((metasSecondPass pm er).2.1 = true ↔ pm.length < 50) ∧
    ((metasSecondPass pm er).1 = er ∨ (metasSecondPass pm er).1 = pm) ∧
    (pm.length < 50 → pm.length < er.length →
      (metasSecondPass pm er).1 = er ∧
      (metasSecondPass pm er).2.2 = ["Metas recargadas en segunda pasada (metas only)."]) ∧
    (pm.length < 50 → ¬ pm.length < er.length →
      (metasSecondPass pm er).1 = pm ∧ (metasSecondPass pm er).2.2 = []) ∧
    (¬ pm.length < 50 →
      (metasSecondPass pm er).1 = pm ∧ (metasSecondPass pm er).2.1 = false ∧
      (metasSecondPass pm er).2.2 = []) := by
  unfold metasSecondPass
  by_cases h50 : pm.length < 50 <;> by_cases hgt : pm.length < er.length <;>
    simp [h50, hgt]

theorem C7_goals_second_pass_witness :
    (metasSecondPass [] [] ).2.1 = true ∧ (metasSecondPass [] []).1 = [] := by
  have h := C7_goals_second_pass [] []
  exact ⟨h.1.mpr (by decide), (h.2.2.2.1 (by decide) (by decide)).1⟩

/-- C1 counterexample: the pipeline amount normalizer `parse_amount_ar`
(common.py:28, recursos.py:43), the function every deterministic parser
uses, does not strip a parenthesis pair: on `"(123,45)"` it raises
`ValueError` instead of returning `-123.45` as the claim states. -/
theorem C1_counterexample :
    (parse_amount_ar (some "(123,45)")).isOk = false ∧
    ¬ parse_amount_ar (some "(123,45)") = .ok (-(mkRat 12345 100)) := by
  constructor
  · decide
  · decide

/-- C1 amended: the parenthesis handling and the error behaviour are split
between two functions.  `parse_amount_ar` removes `.` thousands separators,
converts the `,` decimal separator and parses (`"1.234,56" ↦ 1234.56`),
raising `ValueError` on `None`/empty input and on any input whose cleaned
form is not numeric - including parenthesized tokens.  `normalize_number`
(llm_utils.py:11) additionally strips a surrounding parenthesis pair as a
negative sign (`"1.234,56" ↦ 1234.56`, `"(123,45)" ↦ -123.45`) and returns
`None` - no value, no exception - on empty or non-numeric input. -/
theorem C1_amount_normalizer :
    parse_amount_ar (some "1.234,56") = .ok (mkRat 123456 100) ∧
    mkRat 123456 100 = (1234.56 : ℚ) ∧
    (parse_amount_ar (some "(123,45)")).isOk = false ∧
    parse_amount_ar (some "") = .error "Valor vacio." ∧
    parse_amount_ar none = .error "Valor vacio." ∧
    (∀ s : String, (pyFloatL (cleanAmount (pyStrip s.data))).isNone = true →
      ∃ msg, parse_amount_ar (some s) = .error msg) ∧
    normalize_number "1.234,56" = some (mkRat 123456 100) ∧
    normalize_number "(123,45)" = some (-(mkRat 12345 100)) ∧
    -(mkRat 12345 100) = (-123.45 : ℚ) ∧
    normalize_number "" = none ∧
    (∀ s : String,
      (pyFloatL (cleanAmount
        (stripChars (fun c => c = '(' || c = ')') (pyStrip s.data)))).isNone = true →
      normalize_number s = none) := by
  refine ⟨by decide, ?_, by decide, by decide, by decide, ?_, by decide, by decide, ?_,
    by decide, ?_⟩
  · rw [Rat.mkRat_eq_div]
    norm_num
  · intro s hs
    unfold parse_amount_ar
    by_cases he : (pyStrip s.data).isEmpty
    · simp only [he, if_true]
      exact ⟨_, rfl⟩
    · simp only [he, if_false]
      rw [Option.isNone_iff_eq_none] at hs
      rw [hs]
      exact ⟨_, rfl⟩
  · rw [Rat.mkRat_eq_div]
    norm_num
  · intro s hs
    unfold normalize_number
    by_cases he : (pyStrip s.data).isEmpty
    · simp only [he, if_true]
    · simp only [he, if_false]
      rw [Option.isNone_iff_eq_none] at hs
      rw [hs]
      rfl

theorem C1_amount_normalizer_witness :
    (∃ msg, parse_amount_ar (some "abc") = .error msg) ∧
    normalize_number "xyz" = none :=
  ⟨C1_amount_normalizer.2.2.2.2.2.1 "abc" (by decide),
   C1_amount_normalizer.2.2.2.2.2.2.2.2.2.2 "xyz" (by decide)⟩

theorem movSlug_mem : ∀ sl ∈ MOV_TYPES,
    sl.1 ∈ (["Saldo Inicial", "Ingreso", "Egreso"] : List String) := by decide

theorem movLineBody_found_cases (st : MovState) (line low : String) :
    (movLineBody st line low).found = st.found ∨
    ∃ sl row, sl ∈ MOV_TYPES ∧ MovRow.MovTes_TipoResumido row = sl.1 ∧
      (movLineBody st line low).found = st.found ++ [(sl.1, row)] := by
  simp only [movLineBody]
  by_cases hA : (find_amounts line).isEmpty
  · left
    simp [hA]
  · simp only [hA, Bool.false_eq_true, if_false]
    cases hf : movFindType st low with
    | none =>
      left
      simp only [hf]
      split <;> rfl
    | some sl =>
      right
      refine ⟨sl, ⟨movTipoText line, amountValue ((find_amounts line).headD ""), sl.1⟩,
        List.mem_of_find?_eq_some hf, rfl, ?_⟩
      simp only [hf]
      split <;> rfl

theorem movStep_found_cases (st : MovState) (raw : String) :
    (movStep st raw).found = st.found ∨
    ∃ sl row, sl ∈ MOV_TYPES ∧ MovRow.MovTes_TipoResumido row = sl.1 ∧
      (movStep st raw).found = st.found ++ [(sl.1, row)] := by
  simp only [movStep]
  repeat' split
  all_goals first
    | (left; rfl)
    | exact movLineBody_found_cases _ _ _

theorem movFold_inv (lines : List String) :
    ∀ st : MovState,
      (∀ e ∈ st.found, MovRow.MovTes_TipoResumido e.2 ∈
        (["Saldo Inicial", "Ingreso", "Egreso"] : List String)) →
      ∀ e ∈ (lines.foldl movStep st).found,
        MovRow.MovTes_TipoResumido e.2 ∈
          (["Saldo Inicial", "Ingreso", "Egreso"] : List String) := by
  induction lines with
  | nil =>
    intro st h
    simpa using h
  | cons l ls ih =>
    intro st h
    simp only [List.foldl_cons]
    apply ih
    intro e he
    rcases movStep_found_cases st l with hc | ⟨sl, row, hmem, htr, heq⟩
    · rw [hc] at he
      exact h e he
    · rw [heq] at he
      rcases List.mem_append.1 he with h1 | h1
      · exact h e h1
      · simp only [List.mem_singleton] at h1
        subst h1
        simp only
        rw [htr]
        exact movSlug_mem sl hmem

theorem movRows_mem (found : List (String × MovRow)) :
    ∀ r ∈ movRows found, ∃ e ∈ found, r = e.2 := by
  have gen : ∀ (l : List (String × String)) (acc : List MovRow),
      (∀ r ∈ acc, ∃ e ∈ found, r = e.2) →
      ∀ r ∈ l.foldl (fun acc sl =>
        match found.find? (fun e => e.1 = sl.1) with
        | some e => acc ++ [e.2]
        | none => acc) acc, ∃ e ∈ found, r = e.2 := by
    intro l
    induction l with
    | nil =>
      intro acc h
      simpa using h
    | cons x xs ih =>
      intro acc h
      simp only [List.foldl_cons]
      apply ih
      intro r hr
      cases hf : found.find? (fun e => e.1 = x.1) with
      | none =>
        rw [hf] at hr
        exact h r hr
      | some e =>
        rw [hf] at hr
        rcases List.mem_append.1 hr with h1 | h1
        · exact h r h1
        · simp only [List.mem_singleton] at h1
          subst h1
          exact ⟨e, List.mem_of_find?_eq_some hf, rfl⟩
  exact gen MOV_TYPES [] (by simp)

/-- The canonical six-line treasury section (all six `_MOV_TYPES` labels). -/
def c4Doc : String :=
  "MOVIMIENTOS DE TESORERIA\n" ++
  "Saldo Inicial: 100,00\n" ++
  "Ingresos del Periodo: 50,00\n" ++
  "Ingresos de Ajustes Contables: 5,00\n" ++
  "Gastos del Periodo: 30,00\n" ++
  "Egresos de Ajustes Contables: 3,00\n" ++
  "Saldo Final: 122,00\n" ++
  "ESTADO DE SITUACION PATRIMONIAL"

/-- C4 counterexample: on a document carrying all six canonical movement
lines the parser does not produce one row per canonical kind: the `found`
dict is keyed by the tri-state slug, so the adjustment lines and the closing
balance are never captured, and row assembly iterates the six
`(slug, label)` pairs, appending each captured row once per occurrence of
its slug - six rows that are pairwise duplicates of three movements, with
the two adjustment amounts and the closing balance amount absent. -/
theorem C4_counterexample :
    ((parse_movimientos_from_text c4Doc).1.map MovRow.MovTes_Tipo) =
      ["Saldo Inicial", "Ingresos del Periodo", "Ingresos del Periodo",
       "Gastos del Periodo", "Gastos del Periodo", "Saldo Inicial"] ∧
    ((parse_movimientos_from_text c4Doc).1.map MovRow.MovTes_Importe) =
      [mkRat 10000 100, mkRat 5000 100, mkRat 5000 100,
       mkRat 3000 100, mkRat 3000 100, mkRat 10000 100] ∧
    ¬ (∃ r ∈ (parse_movimientos_from_text c4Doc).1,
        strContains r.MovTes_Tipo "Ajustes" = true) ∧
    ¬ (∃ r ∈ (parse_movimientos_from_text c4Doc).1,
        r.MovTes_Importe = mkRat 12200 100) := by
  refine ⟨by decide, by decide, by decide, by decide⟩

/-- C4 amended: the treasury parser records at most one movement per
tri-state summary type (the first line whose label reduces to each type);
on a document with all six canonical lines it emits each recorded movement
twice (once per `_MOV_TYPES` entry sharing its slug).  Every emitted row
carries a summary type in {Saldo Inicial, Ingreso, Egreso} - never a
distinct Closing Balance type - and the persistence-side
`_normalize_movtes_tipo` maps every label into that tri-state set as well,
sending `saldo final` to `None` (the row is skipped, not stored). -/
theorem C4_treasury_tristate :
    (∀ (text : String) (r : MovRow), r ∈ (parse_movimientos_from_text text).1 →
      r.MovTes_TipoResumido ∈ (["Saldo Inicial", "Ingreso", "Egreso"] : List String)) ∧
    (∀ v : Option String, normalize_movtes_tipo v ∈
      ([none, some "Saldo Inicial", some "Ingreso", some "Egreso"] : List (Option String))) ∧
    normalize_movtes_tipo (some "Saldo Final") = none ∧
    ((parse_movimientos_from_text c4Doc).1.map MovRow.MovTes_TipoResumido) =
      ["Saldo Inicial", "Ingreso", "Ingreso", "Egreso", "Egreso", "Saldo Inicial"] := by
  refine ⟨?_, ?_, by decide, by decide⟩
  · intro text r hr
    unfold parse_movimientos_from_text parse_movimientos_lines at hr
    simp only at hr
    obtain ⟨e, he, hre⟩ := movRows_mem _ r hr
    rw [hre]
    exact movFold_inv (splitLines text) movInit (by simp [movInit]) e he
  · intro v
    simp only [normalize_movtes_tipo]
    split
    · simp
    split
    · simp
    split
    · simp
    split
    · simp
    split
    · simp
    · simp

theorem C4_treasury_tristate_witness :
    ("Ingreso" : String) ∈ (["Saldo Inicial", "Ingreso", "Egreso"] : List String) ∧
    normalize_movtes_tipo (some "Ingresos del Periodo") ∈
      ([none, some "Saldo Inicial", some "Ingreso", some "Egreso"] : List (Option String)) :=
  ⟨C4_treasury_tristate.1 c4Doc
    ⟨"Ingresos del Periodo", mkRat 5000 100, "Ingreso"⟩ (by decide),
   C4_treasury_tristate.2.1 (some "Ingresos del Periodo")⟩

theorem foldlPairAppend {α β γ : Type} (step : (List β × List γ) → α → (List β × List γ))
    (hstep : ∀ acc a, step acc a = (acc.1 ++ (step ([], []) a).1, acc.2 ++ (step ([], []) a).2)) :
    ∀ (l : List α) (acc : List β × List γ),
      l.foldl step acc =
        (acc.1 ++ (l.foldl step ([], [])).1, acc.2 ++ (l.foldl step ([], [])).2) := by
  intro l
  induction l with
  | nil =>
    intro acc
    simp
  | cons a t ih =>
    intro acc
    simp only [List.foldl_cons]
    rw [ih (step acc a), ih (step ([], []) a), hstep acc a]
    simp [List.append_assoc]

theorem foldlTripleAppend {α β γ δ : Type}
    (step : (List β × List γ × List δ) → α → (List β × List γ × List δ))
    (hstep : ∀ acc a, step acc a =
      (acc.1 ++ (step ([], [], []) a).1, acc.2.1 ++ (step ([], [], []) a).2.1,
       acc.2.2 ++ (step ([], [], []) a).2.2)) :
    ∀ (l : List α) (acc : List β × List γ × List δ),
      l.foldl step acc =
        (acc.1 ++ (l.foldl step ([], [], [])).1, acc.2.1 ++ (l.foldl step ([], [], [])).2.1,
         acc.2.2 ++ (l.foldl step ([], [], [])).2.2) := by
  intro l
  induction l with
  | nil =>
    intro acc
    simp
  | cons a t ih =>
    intro acc
    simp only [List.foldl_cons]
    rw [ih (step acc a), ih (step ([], [], []) a), hstep acc a]
    simp [List.append_assoc]

theorem runnerProgStep_append (m : List (String × Nat)) :
    ∀ acc p, runnerProgStep m acc p =
      (acc.1 ++ (runnerProgStep m ([], []) p).1, acc.2 ++ (runnerProgStep m ([], []) p).2) := by
  intro acc p
  unfold runnerProgStep
  cases runnerResolveJuri m p with
  | none => simp
  | some i =>
    by_cases hi : i ≠ 0 <;> simp [hi]

theorem runnerMetaStep_append (bk bn : List ((String × String) × Nat)) :
    ∀ acc mr, runnerMetaStep bk bn acc mr =
      (acc.1 ++ (runnerMetaStep bk bn ([], []) mr).1,
       acc.2 ++ (runnerMetaStep bk bn ([], []) mr).2) := by
  intro acc mr
  unfold runnerMetaStep
  by_cases h : optNatTruthy (runnerResolveMeta bk bn mr) = true <;> simp [h]

theorem ssProgStep_append (m : List (String × Nat)) :
    ∀ acc it, ssProgStep m acc it =
      (acc.1 ++ (ssProgStep m ([], []) it).1, acc.2 ++ (ssProgStep m ([], []) it).2) := by
  intro acc it
  simp only [ssProgStep]
  split <;> simp

theorem ssMetaStep_append (m : List (String × Nat)) :
    ∀ acc it, ssMetaStep m acc it =
      (acc.1 ++ (ssMetaStep m ([], [], []) it).1, acc.2.1 ++ (ssMetaStep m ([], [], []) it).2.1,
       acc.2.2 ++ (ssMetaStep m ([], [], []) it).2.2) := by
  intro acc it
  simp only [ssMetaStep]
  split <;> simp

theorem dictGet_mem {κ ν : Type} [DecidableEq κ] {m : List (κ × ν)} {k : κ} {v : ν}
    (h : dictGet m k = some v) : (k, v) ∈ m := by
  simp only [dictGet, Option.map_eq_some'] at h
  obtain ⟨e, he, hev⟩ := h
  have h1 : e ∈ m := List.mem_reverse.1 (List.mem_of_find?_eq_some he)
  have h2 : e.1 = k := by
    have := List.find?_some he
    simpa using this
  have : e = (k, v) := by
    rw [Prod.ext_iff]
    exact ⟨h2, hev⟩
  rw [← this]
  exact h1

theorem buildRunnerJuriMap_mem {db : List JuriDbRow} {e : String × Nat} :
    e ∈ buildRunnerJuriMap db → ∃ j ∈ db, j.ID_Jurisdiccion = e.2 ∧
      (optStrTruthy j.Juri_Codigo = true ∨ optStrTruthy j.Juri_Nombre = true) := by
  have gen : ∀ (l : List JuriDbRow) (acc : List (String × Nat)),
      e ∈ l.foldl (fun m j =>
        if optStrTruthy j.Juri_Codigo then m ++ [(j.Juri_Codigo.getD "", j.ID_Jurisdiccion)]
        else if optStrTruthy j.Juri_Nombre then m ++ [(j.Juri_Nombre.getD "", j.ID_Jurisdiccion)]
        else m) acc →
      e ∈ acc ∨ ∃ j ∈ l, j.ID_Jurisdiccion = e.2 ∧
        (optStrTruthy j.Juri_Codigo = true ∨ optStrTruthy j.Juri_Nombre = true) := by
    intro l
    induction l with
    | nil =>
      intro acc h
      left
      simpa using h
    | cons j t ih =>
      intro acc h
      simp only [List.foldl_cons] at h
      rcases ih _ h with h1 | ⟨j', hj', hid, hkey⟩
      · by_cases hc : optStrTruthy j.Juri_Codigo = true
        · rw [if_pos hc] at h1
          rcases List.mem_append.1 h1 with h2 | h2
          · left; exact h2
          · right
            refine ⟨j, List.mem_cons_self _ _, ?_, Or.inl hc⟩
            simp only [List.mem_singleton] at h2
            rw [h2]
        · rw [if_neg hc] at h1
          by_cases hn : optStrTruthy j.Juri_Nombre = true
          · rw [if_pos hn] at h1
            rcases List.mem_append.1 h1 with h2 | h2
            · left; exact h2
            · right
              refine ⟨j, List.mem_cons_self _ _, ?_, Or.inr hn⟩
              simp only [List.mem_singleton] at h2
              rw [h2]
          · rw [if_neg hn] at h1
            left; exact h1
      · right
        exact ⟨j', List.mem_cons_of_mem _ hj', hid, hkey⟩
  intro h
  rcases gen db [] h with h1 | h1
  · simp at h1
  · exact h1

theorem buildSSJuriMap_mem {db : List JuriDbRow} {e : String × Nat} :
    e ∈ buildSSJuriMap db → ∃ j ∈ db, j.ID_Jurisdiccion = e.2 ∧
      optStrTruthy j.Juri_Codigo = true := by
  have gen : ∀ (l : List JuriDbRow) (acc : List (String × Nat)),
      e ∈ l.foldl (fun m j =>
        if optStrTruthy j.Juri_Codigo then m ++ [(j.Juri_Codigo.getD "", j.ID_Jurisdiccion)]
        else m) acc →
      e ∈ acc ∨ ∃ j ∈ l, j.ID_Jurisdiccion = e.2 ∧ optStrTruthy j.Juri_Codigo = true := by
    intro l
    induction l with
    | nil =>
      intro acc h
      left
      simpa using h
    | cons j t ih =>
      intro acc h
      simp only [List.foldl_cons] at h
      rcases ih _ h with h1 | ⟨j', hj', hid, hkey⟩
      · by_cases hc : optStrTruthy j.Juri_Codigo = true
        · rw [if_pos hc] at h1
          rcases List.mem_append.1 h1 with h2 | h2
          · left; exact h2
          · right
            refine ⟨j, List.mem_cons_self _ _, ?_, hc⟩
            simp only [List.mem_singleton] at h2
            rw [h2]
        · rw [if_neg hc] at h1
          left; exact h1
      · right
        exact ⟨j', List.mem_cons_of_mem _ hj', hid, hkey⟩
  intro h
  rcases gen db [] h with h1 | h1
  · simp at h1
  · exact h1

theorem runnerResolveJuri_dictGet {m : List (String × Nat)} {p : ProgRowP} {i : Nat}
    (h : runnerResolveJuri m p = some i) : ∃ k, dictGet m k = some i := by
  simp only [runnerResolveJuri] at h
  generalize hv : (if optStrTruthy p.Juri_Codigo = true
    then dictGet m (p.Juri_Codigo.getD "") else none) = v at h
  have hvOrigin : (∃ k, dictGet m k = v) ∨ v = none := by
    by_cases hc : optStrTruthy p.Juri_Codigo = true
    · rw [if_pos hc] at hv
      exact Or.inl ⟨_, hv⟩
    · rw [if_neg hc] at hv
      exact Or.inr hv.symm
  by_cases h1 : optNatTruthy v = true
  · rw [if_pos h1] at h
    rcases hvOrigin with ⟨k, hk⟩ | hnone
    · exact ⟨k, hk.trans h⟩
    · rw [hnone] at h
      cases h
  · rw [if_neg h1] at h
    by_cases h2 : optStrTruthy p.Juri_Nombre = true
    · rw [if_pos h2] at h
      exact ⟨_, h⟩
    · rw [if_neg h2] at h
      rcases hvOrigin with ⟨k, hk⟩ | hnone
      · exact ⟨k, hk.trans h⟩
      · rw [hnone] at h
        cases h

theorem runnerMapProgramas_cons (m : List (String × Nat)) (p : ProgRowP) (ps : List ProgRowP) :
    runnerMapProgramas (p :: ps) m =
      ((runnerProgStep m ([], []) p).1 ++ (runnerMapProgramas ps m).1,
       (runnerProgStep m ([], []) p).2 ++ (runnerMapProgramas ps m).2) := by
  unfold runnerMapProgramas
  simp only [List.foldl_cons]
  exact foldlPairAppend _ (runnerProgStep_append m) ps _

theorem runnerMapMetas_cons (bk bn : List ((String × String) × Nat)) (mr : MetaRowP)
    (ms : List MetaRowP) :
    runnerMapMetas (mr :: ms) bk bn =
      ((runnerMetaStep bk bn ([], []) mr).1 ++ (runnerMapMetas ms bk bn).1,
       (runnerMetaStep bk bn ([], []) mr).2 ++ (runnerMapMetas ms bk bn).2) := by
  unfold runnerMapMetas
  simp only [List.foldl_cons]
  exact foldlPairAppend _ (runnerMetaStep_append bk bn) ms _

theorem ssMapProgramas_cons (m : List (String × Nat)) (it : SSProgItem)
    (its : List SSProgItem) :
    ssMapProgramas (it :: its) m =
      ((ssProgStep m ([], []) it).1 ++ (ssMapProgramas its m).1,
       (ssProgStep m ([], []) it).2 ++ (ssMapProgramas its m).2) := by
  unfold ssMapProgramas
  simp only [List.foldl_cons]
  exact foldlPairAppend _ (ssProgStep_append m) its _

theorem ssMapMetas_cons (m : List (String × Nat)) (it : SSMetaItem)
    (its : List SSMetaItem) :
    ssMapMetas (it :: its) m =
      ((ssMetaStep m ([], [], []) it).1 ++ (ssMapMetas its m).1,
       (ssMetaStep m ([], [], []) it).2.1 ++ (ssMapMetas its m).2.1,
       (ssMetaStep m ([], [], []) it).2.2 ++ (ssMapMetas its m).2.2) := by
  unfold ssMapMetas
  simp only [List.foldl_cons]
  exact foldlTripleAppend _ (ssMetaStep_append m) its _

/-- The runner program row built from `p` and jurisdiction id `i`
(runner.py:172-177). -/
def runnerProgRowOf (p : ProgRowP) (i : Nat) : RunnerProgRow :=
  ⟨i, p.Prog_Codigo, p.Prog_Nombre, p.Prog_Vigente, p.Prog_Preventivo,
   p.Prog_Compromiso, p.Prog_Devengado, p.Prog_Pagado⟩

theorem runnerProgStep_resolved {m : List (String × Nat)} {p : ProgRowP} {i : Nat}
    (acc : List RunnerProgRow × List String)
    (hr : runnerResolveJuri m p = some i) (hi : i ≠ 0) :
    runnerProgStep m acc p = (acc.1 ++ [runnerProgRowOf p i], acc.2) := by
  unfold runnerProgStep
  rw [hr]
  simp [hi, runnerProgRowOf]

theorem runnerProgStep_unresolved {m : List (String × Nat)} {p : ProgRowP}
    (acc : List RunnerProgRow × List String)
    (h : optNatTruthy (runnerResolveJuri m p) = false) :
    runnerProgStep m acc p =
      (acc.1, acc.2 ++ ["Programa sin jurisdiccion: \x27" ++ p.Prog_Nombre ++ "\x27"]) := by
  unfold runnerProgStep
  cases hr : runnerResolveJuri m p with
  | none => rfl
  | some i =>
    rw [hr] at h
    simp only [optNatTruthy, decide_eq_false_iff_not, not_not] at h
    subst h
    simp

theorem optNatTruthy_some {o : Option Nat} (h : optNatTruthy o = true) :
    ∃ i, o = some i ∧ i ≠ 0 := by
  cases o with
  | none => cases h
  | some i =>
    simp only [optNatTruthy, decide_eq_true_eq] at h
    exact ⟨i, rfl, h⟩

theorem runnerMetaStep_unresolved {bk bn : List ((String × String) × Nat)} {mr : MetaRowP}
    (acc : List RunnerMetaRow × List String)
    (h : optNatTruthy (runnerResolveMeta bk bn mr) = false) :
    runnerMetaStep bk bn acc mr =
      (acc.1, acc.2 ++ ["No se encontro programa para meta: " ++
        String.mk (pyStrip mr.Juri_Codigo.data) ++ " " ++
        String.mk (pyStrip mr.Prog_Codigo.data) ++ " " ++ mr.Meta_Nombre]) := by
  simp only [runnerMetaStep]
  rw [h]
  simp

theorem runnerMetaStep_resolved {bk bn : List ((String × String) × Nat)} {mr : MetaRowP}
    (acc : List RunnerMetaRow × List String)
    (h : optNatTruthy (runnerResolveMeta bk bn mr) = true) :
    runnerMetaStep bk bn acc mr =
      (acc.1 ++ [⟨(runnerResolveMeta bk bn mr).getD 0, mr.Meta_Nombre, mr.Meta_Unidad,
        mr.Meta_Anual, mr.Meta_Parcial, mr.Meta_Ejecutado, mr.Meta_Observacion⟩], acc.2) := by
  simp only [runnerMetaStep]
  rw [h]
  simp

theorem ssProgStep_unresolved {m : List (String × Nat)} {it : SSProgItem}
    (acc : List SSProgRow × List String)
    (h : optNatTruthy (dictGet m
      (String.mk (pyStrip ((it.Juri_Codigo).getD "").data))) = false) :
    ssProgStep m acc it = (acc.1, acc.2 ++ ["Programa sin jurisdiccion: " ++ pyShow it.Prog_Nombre]) := by
  simp only [ssProgStep]
  rw [h]
  simp

theorem ssProgStep_resolved {m : List (String × Nat)} {it : SSProgItem}
    (acc : List SSProgRow × List String)
    (h : optNatTruthy (dictGet m
      (String.mk (pyStrip ((it.Juri_Codigo).getD "").data))) = true) :
    ssProgStep m acc it =
      (acc.1 ++ [⟨(dictGet m (String.mk (pyStrip ((it.Juri_Codigo).getD "").data))).getD 0,
        it.Prog_Codigo, it.Prog_Nombre, it.Prog_Vigente, it.Prog_Preventivo,
        it.Prog_Compromiso, it.Prog_Devengado, it.Prog_Pagado⟩], acc.2) := by
  simp only [ssProgStep]
  rw [h]
  simp

theorem ssMetaStep_unresolved {m : List (String × Nat)} {it : SSMetaItem}
    (acc : List SSMetaRow × List String × List SSMetaItem)
    (h : optNatTruthy (dictGet m (ssMetaKey it)) = false) :
    ssMetaStep m acc it =
      (acc.1, acc.2.1 ++ ["Meta sin programa: " ++ pyShow it.Meta_Nombre],
       acc.2.2 ++ [it]) := by
  simp only [ssMetaStep]
  rw [h]
  simp

theorem ssMetaStep_resolved {m : List (String × Nat)} {it : SSMetaItem}
    (acc : List SSMetaRow × List String × List SSMetaItem)
    (h : optNatTruthy (dictGet m (ssMetaKey it)) = true) :
    ssMetaStep m acc it =
      (acc.1 ++ [⟨(dictGet m (ssMetaKey it)).getD 0, it.Meta_Nombre, it.Meta_Unidad,
        it.Meta_Anual, it.Meta_Parcial, it.Meta_Ejecutado, none⟩], acc.2.1, acc.2.2) := by
  simp only [ssMetaStep]
  rw [h]
  simp

theorem runnerProg_rows_from_resolve (m : List (String × Nat)) :
    ∀ (ps : List ProgRowP) (acc : List RunnerProgRow × List String) (r : RunnerProgRow),
      r ∈ (ps.foldl (runnerProgStep m) acc).1 →
      r ∈ acc.1 ∨ ∃ p i, runnerResolveJuri m p = some i ∧ i ≠ 0 ∧ r.ID_Jurisdiccion = i := by
  intro ps
  induction ps with
  | nil =>
    intro acc r h
    left
    simpa using h
  | cons p t ih =>
    intro acc r h
    simp only [List.foldl_cons] at h
    rcases ih _ r h with h1 | h1
    · by_cases ht : optNatTruthy (runnerResolveJuri m p) = true
      · obtain ⟨i, hr, hi⟩ := optNatTruthy_some ht
        rw [runnerProgStep_resolved acc hr hi] at h1
        rcases List.mem_append.1 h1 with h2 | h2
        · left; exact h2
        · right
          simp only [List.mem_singleton] at h2
          exact ⟨p, i, hr, hi, by rw [h2]; rfl⟩
      · rw [runnerProgStep_unresolved acc (by simpa using ht)] at h1
        left
        exact h1
    · right
      exact h1

theorem ssProg_rows_from_map (m : List (String × Nat)) :
    ∀ (items : List SSProgItem) (acc : List SSProgRow × List String) (r : SSProgRow),
      r ∈ (items.foldl (ssProgStep m) acc).1 →
      r ∈ acc.1 ∨ ∃ k i, dictGet m k = some i ∧ i ≠ 0 ∧ r.ID_Jurisdiccion = i := by
  intro items
  induction items with
  | nil =>
    intro acc r h
    left
    simpa using h
  | cons it t ih =>
    intro acc r h
    simp only [List.foldl_cons] at h
    rcases ih _ r h with h1 | h1
    · by_cases ht : optNatTruthy (dictGet m
          (String.mk (pyStrip ((it.Juri_Codigo).getD "").data))) = true
      · obtain ⟨i, hg, hi⟩ := optNatTruthy_some ht
        rw [ssProgStep_resolved acc ht] at h1
        rcases List.mem_append.1 h1 with h2 | h2
        · left; exact h2
        · right
          simp only [List.mem_singleton] at h2
          refine ⟨_, i, hg, hi, ?_⟩
          rw [h2, hg]
          rfl
      · rw [ssProgStep_unresolved acc (by simpa using ht)] at h1
        left
        exact h1
    · right
      exact h1

theorem runnerMapProgramas_counts (m : List (String × Nat)) :
    ∀ ps : List ProgRowP,
      (runnerMapProgramas ps m).1.length + (runnerMapProgramas ps m).2.length = ps.length := by
  intro ps
  induction ps with
  | nil => rfl
  | cons p t ih =>
    rw [runnerMapProgramas_cons]
    simp only [List.length_append, List.length_cons]
    by_cases ht : optNatTruthy (runnerResolveJuri m p) = true
    · obtain ⟨i, hr, hi⟩ := optNatTruthy_some ht
      rw [runnerProgStep_resolved ([], []) hr hi]
      simp only [List.length_append, List.length_cons, List.length_nil]
      omega
    · rw [runnerProgStep_unresolved ([], []) (by simpa using ht)]
      simp only [List.length_append, List.length_cons, List.length_nil]
      omega

theorem runnerProg_warn_mem (m : List (String × Nat)) :
    ∀ (ps : List ProgRowP) (p : ProgRowP), p ∈ ps →
      optNatTruthy (runnerResolveJuri m p) = false →
      ("Programa sin jurisdiccion: \x27" ++ p.Prog_Nombre ++ "\x27") ∈
        (runnerMapProgramas ps m).2 := by
  intro ps
  induction ps with
  | nil =>
    intro p hp
    cases hp
  | cons q t ih =>
    intro p hp hun
    rw [runnerMapProgramas_cons]
    rcases List.mem_cons.1 hp with h1 | h1
    · subst h1
      rw [runnerProgStep_unresolved ([], []) hun]
      simp
    · exact List.mem_append_right _ (ih p h1 hun)

theorem ssMapProgramas_counts (m : List (String × Nat)) :
    ∀ items : List SSProgItem,
      (ssMapProgramas items m).1.length + (ssMapProgramas items m).2.length = items.length := by
  intro items
  induction items with
  | nil => rfl
  | cons it t ih =>
    rw [ssMapProgramas_cons]
    simp only [List.length_append, List.length_cons]
    by_cases ht : optNatTruthy (dictGet m
        (String.mk (pyStrip ((it.Juri_Codigo).getD "").data))) = true
    · rw [ssProgStep_resolved ([], []) ht]
      simp only [List.length_append, List.length_cons, List.length_nil]
      omega
    · rw [ssProgStep_unresolved ([], []) (by simpa using ht)]
      simp only [List.length_append, List.length_cons, List.length_nil]
      omega

theorem ssProg_warn_mem (m : List (String × Nat)) :
    ∀ (items : List SSProgItem) (it : SSProgItem), it ∈ items →
      optNatTruthy (dictGet m
        (String.mk (pyStrip ((it.Juri_Codigo).getD "").data))) = false →
      ("Programa sin jurisdiccion: " ++ pyShow it.Prog_Nombre) ∈ (ssMapProgramas items m).2 := by
  intro items
  induction items with
  | nil =>
    intro it hit
    cases hit
  | cons q t ih =>
    intro it hit hun
    rw [ssMapProgramas_cons]
    rcases List.mem_cons.1 hit with h1 | h1
    · subst h1
      rw [ssProgStep_unresolved ([], []) hun]
      simp
    · exact List.mem_append_right _ (ih it h1 hun)

/-- C2: in both ingestion paths, every persisted program row points at a
jurisdiction of the same run.  (a)/(d): every mapped program row's
`ID_Jurisdiccion` is the id of a fetched jurisdiction of this run that is
keyed (by code, or in the runner also by name) in the jurisdiction map.
(b)/(e): each input program yields exactly one row or one warning, so
unresolvable programs are dropped, never inserted under another parent.
(c)/(f): every unresolvable program leaves its warning in the output. -/
theorem C2_program_jurisdiction :
    (∀ (db : List JuriDbRow) (ps : List ProgRowP) (r : RunnerProgRow),
      r ∈ (runnerMapProgramas ps (buildRunnerJuriMap db)).1 →
      ∃ j ∈ db, j.ID_Jurisdiccion = r.ID_Jurisdiccion ∧
        (optStrTruthy j.Juri_Codigo = true ∨ optStrTruthy j.Juri_Nombre = true)) ∧
    (∀ (m : List (String × Nat)) (ps : List ProgRowP),
      (runnerMapProgramas ps m).1.length + (runnerMapProgramas ps m).2.length = ps.length) ∧
    (∀ (m : List (String × Nat)) (ps : List ProgRowP) (p : ProgRowP), p ∈ ps →
      optNatTruthy (runnerResolveJuri m p) = false →
      ("Programa sin jurisdiccion: \x27" ++ p.Prog_Nombre ++ "\x27") ∈
        (runnerMapProgramas ps m).2) ∧
    (∀ (db : List JuriDbRow) (items : List SSProgItem) (r : SSProgRow),
      r ∈ (ssMapProgramas items (buildSSJuriMap db)).1 →
      ∃ j ∈ db, j.ID_Jurisdiccion = r.ID_Jurisdiccion ∧ optStrTruthy j.Juri_Codigo = true) ∧
    (∀ (m : List (String × Nat)) (items : List SSProgItem),
      (ssMapProgramas items m).1.length + (ssMapProgramas items m).2.length = items.length) ∧
    (∀ (m : List (String × Nat)) (items : List SSProgItem) (it : SSProgItem), it ∈ items →
      optNatTruthy (dictGet m
        (String.mk (pyStrip ((it.Juri_Codigo).getD "").data))) = false →
      ("Programa sin jurisdiccion: " ++ pyShow it.Prog_Nombre) ∈ (ssMapProgramas items m).2) := by
  refine ⟨?_, ?_, ?_, ?_, ?_, ?_⟩
  · intro db ps r hr
    rcases runnerProg_rows_from_resolve (buildRunnerJuriMap db) ps ([], []) r hr with h | h
    · cases h
    · obtain ⟨p, i, hres, hi, hid⟩ := h
      obtain ⟨k, hget⟩ := runnerResolveJuri_dictGet hres
      obtain ⟨j, hj, hjid, hkey⟩ := buildRunnerJuriMap_mem (dictGet_mem hget)
      exact ⟨j, hj, by rw [hjid, hid], hkey⟩
  · intro m ps
    exact runnerMapProgramas_counts m ps
  · intro m ps p hp hun
    exact runnerProg_warn_mem m ps p hp hun
  · intro db items r hr
    rcases ssProg_rows_from_map (buildSSJuriMap db) items ([], []) r hr with h | h
    · cases h
    · obtain ⟨k, i, hget, hi, hid⟩ := h
      obtain ⟨j, hj, hjid, hkey⟩ := buildSSJuriMap_mem (dictGet_mem hget)
      exact ⟨j, hj, by rw [hjid, hid], hkey⟩
  · intro m items
    exact ssMapProgramas_counts m items
  · intro m items it hit hun
    exact ssProg_warn_mem m items it hit hun

theorem C2_program_jurisdiction_witness :
    (∃ j ∈ [(⟨some "1234567890", none, 7⟩ : JuriDbRow)], j.ID_Jurisdiccion = 7 ∧
      (optStrTruthy j.Juri_Codigo = true ∨ optStrTruthy j.Juri_Nombre = true)) ∧
    ("Programa sin jurisdiccion: \x27Perdido\x27" ∈
      (runnerMapProgramas
        [⟨some "X", none, some "01", "Perdido", 1, 2, 3, 4, 5⟩] []).2) :=
  ⟨C2_program_jurisdiction.1 [⟨some "1234567890", none, 7⟩]
      [⟨some "1234567890", none, some "01", "Salud", 1, 2, 3, 4, 5⟩]
      ⟨7, some "01", "Salud", 1, 2, 3, 4, 5⟩ (by decide),
   C2_program_jurisdiction.2.2.1 [] [⟨some "X", none, some "01", "Perdido", 1, 2, 3, 4, 5⟩]
      ⟨some "X", none, some "01", "Perdido", 1, 2, 3, 4, 5⟩ (by decide) (by decide)⟩

theorem ssMapMetas_counts (m : List (String × Nat)) :
    ∀ items : List SSMetaItem,
      (ssMapMetas items m).1.length + (ssMapMetas items m).2.2.length = items.length := by
  intro items
  induction items with
  | nil => rfl
  | cons it t ih =>
    rw [ssMapMetas_cons]
    simp only [List.length_append, List.length_cons]
    by_cases ht : optNatTruthy (dictGet m (ssMetaKey it)) = true
    · rw [ssMetaStep_resolved ([], [], []) ht]
      simp only [List.length_append, List.length_cons, List.length_nil]
      omega
    · rw [ssMetaStep_unresolved ([], [], []) (by simpa using ht)]
      simp only [List.length_append, List.length_cons, List.length_nil]
      omega

theorem ssMeta_unresolved_mem (m : List (String × Nat)) :
    ∀ (items : List SSMetaItem) (it : SSMetaItem), it ∈ items →
      optNatTruthy (dictGet m (ssMetaKey it)) = false →
      it ∈ (ssMapMetas items m).2.2 ∧
      ("Meta sin programa: " ++ pyShow it.Meta_Nombre) ∈ (ssMapMetas items m).2.1 := by
  intro items
  induction items with
  | nil =>
    intro it hit
    cases hit
  | cons q t ih =>
    intro it hit hun
    rw [ssMapMetas_cons]
    rcases List.mem_cons.1 hit with h1 | h1
    · subst h1
      rw [ssMetaStep_unresolved ([], [], []) hun]
      constructor
      · simp
      · simp
    · obtain ⟨hu, hw⟩ := ih it h1 hun
      exact ⟨List.mem_append_right _ hu, List.mem_append_right _ hw⟩

theorem runnerMapMetas_counts (bk bn : List ((String × String) × Nat)) :
    ∀ metas : List MetaRowP,
      (runnerMapMetas metas bk bn).1.length + (runnerMapMetas metas bk bn).2.length =
        metas.length := by
  intro metas
  induction metas with
  | nil => rfl
  | cons mr t ih =>
    rw [runnerMapMetas_cons]
    simp only [List.length_append, List.length_cons]
    by_cases ht : optNatTruthy (runnerResolveMeta bk bn mr) = true
    · rw [runnerMetaStep_resolved ([], []) ht]
      simp only [List.length_append, List.length_cons, List.length_nil]
      omega
    · rw [runnerMetaStep_unresolved ([], []) (by simpa using ht)]
      simp only [List.length_append, List.length_cons, List.length_nil]
      omega

theorem runnerMeta_warn_mem (bk bn : List ((String × String) × Nat)) :
    ∀ (metas : List MetaRowP) (mr : MetaRowP), mr ∈ metas →
      optNatTruthy (runnerResolveMeta bk bn mr) = false →
      ("No se encontro programa para meta: " ++
        String.mk (pyStrip mr.Juri_Codigo.data) ++ " " ++
        String.mk (pyStrip mr.Prog_Codigo.data) ++ " " ++ mr.Meta_Nombre) ∈
        (runnerMapMetas metas bk bn).2 := by
  intro metas
  induction metas with
  | nil =>
    intro mr hmr
    cases hmr
  | cons q t ih =>
    intro mr hmr hun
    rw [runnerMapMetas_cons]
    rcases List.mem_cons.1 hmr with h1 | h1
    · subst h1
      rw [runnerMetaStep_unresolved ([], []) hun]
      simp
    · exact List.mem_append_right _ (ih mr h1 hun)

/-- C8 counterexample: the deterministic runner (runner.py:253-277) does
discard a goal whose program cannot be resolved: with one parsed goal and
empty program maps, the goal loop returns no rows and only a warning
string - the goal row is retained in no output collection, there is no
unresolved side-channel on this path. -/
theorem C8_counterexample :
    runnerMapMetas
        [⟨"1234567890", "01", some "X", "Meta perdida", none, some 1, some 2, some 3, none⟩]
        [] [] =
      ([], ["No se encontro programa para meta: 1234567890 01 Meta perdida"]) := by
  decide

/-- C8 amended: only the single-shot pipeline keeps unresolved goals.  In
`_map_metas` every goal whose key misses the program mapping is appended to
the separate `unresolved` list with a warning (and each input goal becomes
exactly one row or one unresolved entry), and `run_single_shot` routes the
unresolved list to the staging table when one is configured; the run is not
aborted.  In the deterministic runner, an unresolvable goal only leaves a
warning - it is dropped from every output collection. -/
theorem C8_unresolved_goals :
    (∀ (items : List SSMetaItem) (m : List (String × Nat)) (it : SSMetaItem),
      it ∈ items → optNatTruthy (dictGet m (ssMetaKey it)) = false →
      it ∈ (ssMapMetas items m).2.2 ∧
      ("Meta sin programa: " ++ pyShow it.Meta_Nombre) ∈ (ssMapMetas items m).2.1) ∧
    (∀ (items : List SSMetaItem) (m : List (String × Nat)),
      (ssMapMetas items m).1.length + (ssMapMetas items m).2.2.length = items.length) ∧
    (∀ (unresolved : List SSMetaItem) (tbl : Option String),
      unresolved ≠ [] → optStrTruthy tbl = true → ssStagingRouted unresolved tbl = true) ∧
    (∀ (metas : List MetaRowP) (bk bn : List ((String × String) × Nat)) (mr : MetaRowP),
      mr ∈ metas → optNatTruthy (runnerResolveMeta bk bn mr) = false →
      ("No se encontro programa para meta: " ++
        String.mk (pyStrip mr.Juri_Codigo.data) ++ " " ++
        String.mk (pyStrip mr.Prog_Codigo.data) ++ " " ++ mr.Meta_Nombre) ∈
        (runnerMapMetas metas bk bn).2) ∧
    (∀ (metas : List MetaRowP) (bk bn : List ((String × String) × Nat)),
      (runnerMapMetas metas bk bn).1.length + (runnerMapMetas metas bk bn).2.length =
        metas.length) := by
  refine ⟨?_, ?_, ?_, ?_, ?_⟩
  · intro items m it hit hun
    exact ssMeta_unresolved_mem m items it hit hun
  · intro items m
    exact ssMapMetas_counts m items
  · intro unresolved tbl hne htbl
    unfold ssStagingRouted
    rw [htbl]
    simp [hne]
  · intro metas bk bn mr hmr hun
    exact runnerMeta_warn_mem bk bn metas mr hmr hun
  · intro metas bk bn
    exact runnerMapMetas_counts bk bn metas

theorem C8_unresolved_goals_witness :
    ((⟨some "1234567890", some "01", some "X", some "Meta A", none, some 1, some 2,
        some 3⟩ : SSMetaItem) ∈
      (ssMapMetas [⟨some "1234567890", some "01", some "X", some "Meta A", none, some 1,
        some 2, some 3⟩] []).2.2 ∧
      ("Meta sin programa: Meta A") ∈
        (ssMapMetas [⟨some "1234567890", some "01", some "X", some "Meta A", none, some 1,
          some 2, some 3⟩] []).2.1) ∧
    ssStagingRouted [⟨some "1234567890", some "01", some "X", some "Meta A", none, some 1,
      some 2, some 3⟩] (some "staging") = true :=
  ⟨C8_unresolved_goals.1 _ [] _ (by decide) (by decide),
   C8_unresolved_goals.2.2.1 _ (some "staging") (by decide) (by decide)⟩

theorem recStep_stopped {st : RecState} (h : st.stopped = true) (l : String) :
    recStep st l = st := by
  unfold recStep
  rw [if_pos h]

theorem recFold_stopped {st : RecState} (h : st.stopped = true) :
    ∀ lines : List String, lines.foldl recStep st = st := by
  intro lines
  induction lines with
  | nil => rfl
  | cons l t ih =>
    simp only [List.foldl_cons, recStep_stopped h]
    exact ih

theorem recStep_stops {st : RecState} {ml : String} (hsec : st.inSection = true)
    (hkw : recursosEndKeywords.any
      (fun k => strContains (normalize_key (normalize_name ml)) k) = true) :
    (recStep st ml).stopped = true := by
  by_cases hstop : st.stopped = true
  · rw [recStep_stopped hstop]
    exact hstop
  · have hstop' : st.stopped = false := by
      revert hstop
      cases st.stopped <;> simp
    simp only [recStep, hstop', Bool.false_eq_true, if_false]
    by_cases hline : (normalize_name ml).isEmpty = true
    · exfalso
      have hml : normalize_name ml = "" := (String.isEmpty_iff _).1 hline
      rw [hml] at hkw
      exact absurd hkw (by decide)
    · simp only [hline, Bool.false_eq_true, if_false, hsec, Bool.not_true, hkw, if_true]

theorem gastoStep_stopped {st : GastoState} (h : st.stopped = true) (l : String) :
    gastoStep st l = st := by
  unfold gastoStep
  rw [if_pos h]

theorem gastoFold_stopped {st : GastoState} (h : st.stopped = true) :
    ∀ lines : List String, lines.foldl gastoStep st = st := by
  intro lines
  induction lines with
  | nil => rfl
  | cons l t ih =>
    simp only [List.foldl_cons, gastoStep_stopped h]
    exact ih

theorem gastoStep_stops {st : GastoState} {ml : String} (hsec : st.inSection = true)
    (hkw : gastosEndKeywords.any
      (fun k => strContains (normalize_key (normalize_name ml)) k) = true) :
    (gastoStep st ml).stopped = true := by
  by_cases hstop : st.stopped = true
  · rw [gastoStep_stopped hstop]
    exact hstop
  · have hstop' : st.stopped = false := by
      revert hstop
      cases st.stopped <;> simp
    simp only [gastoStep, hstop', Bool.false_eq_true, if_false]
    by_cases hline : (normalize_name ml).isEmpty = true
    · exfalso
      have hml : normalize_name ml = "" := (String.isEmpty_iff _).1 hline
      rw [hml] at hkw
      exact absurd hkw (by decide)
    · simp only [hline, Bool.false_eq_true, if_false, hsec, Bool.not_true, hkw, if_true]

theorem progStep_stopped {st : ProgState} (h : st.stopped = true) (l : String) :
    progStep st l = st := by
  unfold progStep
  rw [if_pos h]

theorem progFold_stopped {st : ProgState} (h : st.stopped = true) :
    ∀ lines : List String, lines.foldl progStep st = st := by
  intro lines
  induction lines with
  | nil => rfl
  | cons l t ih =>
    simp only [List.foldl_cons, progStep_stopped h]
    exact ih

theorem progStep_stops {st : ProgState} {ml : String} (hsec : st.inSection = true)
    (hkw : programasEndKeywords.any
      (fun k => strContains (normalize_key (normalize_name ml)) k) = true) :
    (progStep st ml).stopped = true := by
  by_cases hstop : st.stopped = true
  · rw [progStep_stopped hstop]
    exact hstop
  · have hstop' : st.stopped = false := by
      revert hstop
      cases st.stopped <;> simp
    simp only [progStep, hstop', Bool.false_eq_true, if_false]
    by_cases hline : (normalize_name ml).isEmpty = true
    · exfalso
      have hml : normalize_name ml = "" := (String.isEmpty_iff _).1 hline
      rw [hml] at hkw
      exact absurd hkw (by decide)
    · simp only [hline, Bool.false_eq_true, if_false, hsec, Bool.not_true, hkw, if_true]

/-- C9: once a parser that has entered its section meets a line containing
one of its configured end-marker keywords, no later line contributes
anything: parsing the document with any suffix after the end-marker line
equals parsing the document truncated right after that line - for the
resources, expenses and programs/jurisdictions parsers alike. -/
theorem C9_section_end (pre post : List String) (ml : String) :
    ((pre.foldl recStep recInit).inSection = true →
      recursosEndKeywords.any
        (fun k => strContains (normalize_key (normalize_name ml)) k) = true →
      parse_recursos_lines (pre ++ ml :: post) = parse_recursos_lines (pre ++ [ml])) ∧
    ((pre.foldl gastoStep gastoInit).inSection = true →
      gastosEndKeywords.any
        (fun k => strContains (normalize_key (normalize_name ml)) k) = true →
      parse_gastos_lines (pre ++ ml :: post) = parse_gastos_lines (pre ++ [ml])) ∧
    ((pre.foldl progStep progInit).inSection = true →
      programasEndKeywords.any
        (fun k => strContains (normalize_key (normalize_name ml)) k) = true →
      parse_programas_lines (pre ++ ml :: post) = parse_programas_lines (pre ++ [ml])) := by
  refine ⟨?_, ?_, ?_⟩
  · intro hsec hkw
    unfold parse_recursos_lines
    rw [show pre ++ ml :: post = (pre ++ [ml]) ++ post from by simp]
    rw [List.foldl_append, List.foldl_append]
    simp only [List.foldl_cons, List.foldl_nil]
    rw [recFold_stopped (recStep_stops hsec hkw) post]
  · intro hsec hkw
    unfold parse_gastos_lines
    rw [show pre ++ ml :: post = (pre ++ [ml]) ++ post from by simp]
    rw [List.foldl_append, List.foldl_append]
    simp only [List.foldl_cons, List.foldl_nil]
    rw [gastoFold_stopped (gastoStep_stops hsec hkw) post]
  · intro hsec hkw
    unfold parse_programas_lines
    rw [show pre ++ ml :: post = (pre ++ [ml]) ++ post from by simp]
    rw [List.foldl_append, List.foldl_append]
    simp only [List.foldl_cons, List.foldl_nil]
    rw [progFold_stopped (progStep_stops hsec hkw) post]

theorem C9_section_end_witness :
    parse_recursos_lines
        ["EVOLUCION DE LOS RECURSOS", "MOVIMIENTOS DE TESORERIA", "x 1,00 2,00 3,00"] =
      parse_recursos_lines ["EVOLUCION DE LOS RECURSOS", "MOVIMIENTOS DE TESORERIA"] ∧
    parse_gastos_lines
        ["EVOLUCION DE GASTOS POR OBJETO", "EVOLUCION DE LOS RECURSOS",
         "x 1,00 2,00 3,00 4,00 5,00"] =
      parse_gastos_lines ["EVOLUCION DE GASTOS POR OBJETO", "EVOLUCION DE LOS RECURSOS"] ∧
    parse_programas_lines
        ["EVOLUCION DE GASTOS POR PROGRAMA", "MOVIMIENTOS DE TESORERIA",
         "1234567890 01 Salud 1,00 2,00 3,00 4,00 5,00"] =
      parse_programas_lines
        ["EVOLUCION DE GASTOS POR PROGRAMA", "MOVIMIENTOS DE TESORERIA"] :=
  ⟨(C9_section_end ["EVOLUCION DE LOS RECURSOS"] ["x 1,00 2,00 3,00"]
      "MOVIMIENTOS DE TESORERIA").1 (by decide) (by decide),
   (C9_section_end ["EVOLUCION DE GASTOS POR OBJETO"] ["x 1,00 2,00 3,00 4,00 5,00"]
      "EVOLUCION DE LOS RECURSOS").2.1 (by decide) (by decide),
   (C9_section_end ["EVOLUCION DE GASTOS POR PROGRAMA"]
      ["1234567890 01 Salud 1,00 2,00 3,00 4,00 5,00"]
      "MOVIMIENTOS DE TESORERIA").2.2 (by decide) (by decide)⟩

/-- Shape of the warnings `parse_recursos_from_text` can emit
(recursos.py:170, 206): per-line anomalies only. -/
def recWarnShape (w : String) : Prop :=
  ∃ l, w = "Fila sin tipo detectado: \x27" ++ l ++ "\x27" ∨
    w = "Fila con cantidad de importes inesperada: \x27" ++ l ++ "\x27"

/-- Shape of the warnings `parse_gastos_objeto_from_text` can emit
(gastos.py:86). -/
def gastoWarnShape (w : String) : Prop :=
  ∃ l, w = "Fila sin tipo detectado: \x27" ++ l ++ "\x27"

/-- Shape of the warnings `parse_programas_from_text` can emit
(programas.py:127). -/
def progWarnShape (w : String) : Prop :=
  ∃ l, w = "Fila de programa incompleta: \x27" ++ l ++ "\x27"

theorem zeroRowsPair {α} (rows : List α) (msg : String) :
    (rows = [] ↔ (if rows.isEmpty then [msg] else ([] : List String)) = [msg]) ∧
    (rows ≠ [] → (if rows.isEmpty then [msg] else ([] : List String)) = []) := by
  by_cases h : rows.isEmpty = true
  · rw [if_pos h]
    rw [List.isEmpty_iff] at h
    exact ⟨⟨fun _ => rfl, fun _ => h⟩, fun hne => absurd h hne⟩
  · rw [if_neg h]
    rw [List.isEmpty_iff] at h
    refine ⟨⟨fun he => absurd he h, fun hc => absurd hc.symm (by simp)⟩, fun _ => rfl⟩

set_option maxHeartbeats 2000000 in
theorem recStep_warnings (st : RecState) (l : String) :
    (recStep st l).warnings = st.warnings ∨
    ∃ msg, recWarnShape msg ∧ (recStep st l).warnings = st.warnings ++ [msg] := by
  rw [recStep]
  by_cases h1 : st.stopped = true
  · rw [if_pos h1]; left; rfl
  rw [if_neg h1]
  by_cases h2 : (normalize_name l).isEmpty = true
  · rw [if_pos h2]; left; rfl
  rw [if_neg h2]
  by_cases h3 : (!st.inSection) = true
  · rw [if_pos h3]
    by_cases h4 : (strContains (normalize_key (normalize_name l)) "evolucion de los recursos" ||
        (strContains (normalize_key (normalize_name l)) "evolucion" &&
          strContains (normalize_key (normalize_name l)) "recursos")) = true
    · rw [if_pos h4]; left; rfl
    · rw [if_neg h4]; left; rfl
  rw [if_neg h3]
  by_cases h5 : (recursosEndKeywords.any
      (fun k => strContains (normalize_key (normalize_name l)) k)) = true
  · rw [if_pos h5]; left; rfl
  rw [if_neg h5]
  by_cases h6 : isRightColumnLine (normalize_name l) = true
  · rw [if_pos h6]; left; rfl
  rw [if_neg h6]
  by_cases h7 : (splitLeftColumn (normalize_name l)).isEmpty = true
  · rw [if_pos h7]; left; rfl
  rw [if_neg h7]
  dsimp only
  repeat' split
  all_goals first
    | (left; rfl)
    | (right; exact ⟨_, ⟨_, Or.inl rfl⟩, rfl⟩)
    | (right; exact ⟨_, ⟨_, Or.inr rfl⟩, rfl⟩)

set_option maxHeartbeats 2000000 in
theorem gastoStep_warnings (st : GastoState) (l : String) :
    (gastoStep st l).warnings = st.warnings ∨
    ∃ msg, gastoWarnShape msg ∧ (gastoStep st l).warnings = st.warnings ++ [msg] := by
  rw [gastoStep]
  by_cases h1 : st.stopped = true
  · rw [if_pos h1]; left; rfl
  rw [if_neg h1]
  by_cases h2 : (normalize_name l).isEmpty = true
  · rw [if_pos h2]; left; rfl
  rw [if_neg h2]
  by_cases h3 : (!st.inSection) = true
  · rw [if_pos h3]
    by_cases h4 : strContains (normalize_key (normalize_name l))
        "evolucion de gastos por objeto" = true
    · rw [if_pos h4]; left; rfl
    · rw [if_neg h4]; left; rfl
  rw [if_neg h3]
  by_cases h5 : (gastosEndKeywords.any
      (fun k => strContains (normalize_key (normalize_name l)) k)) = true
  · rw [if_pos h5]; left; rfl
  rw [if_neg h5]
  by_cases h6 : (strStarts (normalize_key (normalize_name l)) "1." &&
      strContains (normalize_key (normalize_name l)) "presupuest") = true
  · rw [if_pos h6]; left; rfl
  rw [if_neg h6]
  by_cases h7 : (strStarts (normalize_key (normalize_name l)) "2." &&
      strContains (normalize_key (normalize_name l)) "extrapresupuest") = true
  · rw [if_pos h7]; left; rfl
  rw [if_neg h7]
  dsimp only
  repeat' split
  all_goals first
    | (left; rfl)
    | (right; exact ⟨_, ⟨_, rfl⟩, rfl⟩)

set_option maxHeartbeats 2000000 in
theorem progStep_warnings (st : ProgState) (l : String) :
    (progStep st l).warnings = st.warnings ∨
    ∃ msg, progWarnShape msg ∧ (progStep st l).warnings = st.warnings ++ [msg] := by
  rw [progStep]
  by_cases h1 : st.stopped = true
  · rw [if_pos h1]; left; rfl
  rw [if_neg h1]
  by_cases h2 : (normalize_name l).isEmpty = true
  · rw [if_pos h2]; left; rfl
  rw [if_neg h2]
  by_cases h3 : (!st.inSection) = true
  · rw [if_pos h3]
    by_cases h4 : strContains (normalize_key (normalize_name l))
        "evolucion de gastos por programa" = true
    · rw [if_pos h4]; left; rfl
    · rw [if_neg h4]; left; rfl
  rw [if_neg h3]
  by_cases h5 : (programasEndKeywords.any
      (fun k => strContains (normalize_key (normalize_name l)) k)) = true
  · rw [if_pos h5]; left; rfl
  rw [if_neg h5]
  by_cases h6 : isTotalRow (normalize_name l) = true
  · rw [if_pos h6]; left; rfl
  rw [if_neg h6]
  dsimp only
  repeat' split
  all_goals first
    | (left; rfl)
    | (right; exact ⟨_, ⟨_, rfl⟩, rfl⟩)

theorem recFold_warnings (lines : List String) :
    ∀ st : RecState, (∀ w ∈ st.warnings, recWarnShape w) →
      ∀ w ∈ (lines.foldl recStep st).warnings, recWarnShape w := by
  induction lines with
  | nil =>
    intro st h
    simpa using h
  | cons l t ih =>
    intro st h
    simp only [List.foldl_cons]
    apply ih
    intro w hw
    rcases recStep_warnings st l with h1 | ⟨msg, hshape, h1⟩
    · rw [h1] at hw
      exact h w hw
    · rw [h1] at hw
      rcases List.mem_append.1 hw with h2 | h2
      · exact h w h2
      · simp only [List.mem_singleton] at h2
        rw [h2]
        exact hshape

theorem gastoFold_warnings (lines : List String) :
    ∀ st : GastoState, (∀ w ∈ st.warnings, gastoWarnShape w) →
      ∀ w ∈ (lines.foldl gastoStep st).warnings, gastoWarnShape w := by
  induction lines with
  | nil =>
    intro st h
    simpa using h
  | cons l t ih =>
    intro st h
    simp only [List.foldl_cons]
    apply ih
    intro w hw
    rcases gastoStep_warnings st l with h1 | ⟨msg, hshape, h1⟩
    · rw [h1] at hw
      exact h w hw
    · rw [h1] at hw
      rcases List.mem_append.1 hw with h2 | h2
      · exact h w h2
      · simp only [List.mem_singleton] at h2
        rw [h2]
        exact hshape

theorem progFold_warnings (lines : List String) :
    ∀ st : ProgState, (∀ w ∈ st.warnings, progWarnShape w) →
      ∀ w ∈ (lines.foldl progStep st).warnings, progWarnShape w := by
  induction lines with
  | nil =>
    intro st h
    simpa using h
  | cons l t ih =>
    intro st h
    simp only [List.foldl_cons]
    apply ih
    intro w hw
    rcases progStep_warnings st l with h1 | ⟨msg, hshape, h1⟩
    · rw [h1] at hw
      exact h w hw
    · rw [h1] at hw
      rcases List.mem_append.1 hw with h2 | h2
      · exact h w h2
      · simp only [List.mem_singleton] at h2
        rw [h2]
        exact hshape

/-- C3 counterexample: `parse_recursos_from_text` reaches end of input
having collected zero rows (the section start marker is present, nothing
else) and appends no warning at all - not the exactly-one zero-rows warning
the claim requires of every parser. -/
theorem C3_counterexample :
    parse_recursos_from_text "evolucion de los recursos" = ([], []) ∧
    (parse_recursos_from_text "evolucion de los recursos").1 = [] ∧
    ¬ (parse_recursos_from_text "evolucion de los recursos").2.length = 1 := by
  refine ⟨by decide, by decide, by decide⟩

/-- C3 amended: no parser raises for malformed lines (every parser is a
total function in this embedding).  The treasury-movements, accounts,
balance-sheet and goals parsers append exactly one warning when they finish
with zero rows and none otherwise; the resources, expenses and
programs/jurisdictions parsers emit only per-line anomaly warnings
(`Fila sin tipo detectado` / `Fila con cantidad de importes inesperada` /
`Fila de programa incompleta`) and never a zero-rows warning. -/
theorem C3_zero_rows_warning (text : String) :
    ((parse_movimientos_from_text text).1 = [] ↔
      (parse_movimientos_from_text text).2 = ["No se encontraron movimientos de tesoreria."]) ∧
    ((parse_movimientos_from_text text).1 ≠ [] → (parse_movimientos_from_text text).2 = []) ∧
    ((parse_cuentas_from_text text).1 = [] ↔
      (parse_cuentas_from_text text).2 = ["No se encontraron cuentas."]) ∧
    ((parse_cuentas_from_text text).1 ≠ [] → (parse_cuentas_from_text text).2 = []) ∧
    ((parse_sitpat_from_text text).1 = [] ↔
      (parse_sitpat_from_text text).2 = ["No se encontraron filas de situacion patrimonial."]) ∧
    ((parse_sitpat_from_text text).1 ≠ [] → (parse_sitpat_from_text text).2 = []) ∧
    ((parse_metas_from_text text).1 = [] ↔
      (parse_metas_from_text text).2 = ["No se encontraron metas."]) ∧
    ((parse_metas_from_text text).1 ≠ [] → (parse_metas_from_text text).2 = []) ∧
    (∀ w ∈ (parse_recursos_from_text text).2, recWarnShape w) ∧
    (∀ w ∈ (parse_gastos_objeto_from_text text).2, gastoWarnShape w) ∧
    (∀ w ∈ (parse_programas_from_text text).2.2, progWarnShape w) := by
  refine ⟨?_, ?_, ?_, ?_, ?_, ?_, ?_, ?_, ?_, ?_, ?_⟩
  · unfold parse_movimientos_from_text parse_movimientos_lines
    exact (zeroRowsPair (movRows ((splitLines text).foldl movStep movInit).found) _).1
  · unfold parse_movimientos_from_text parse_movimientos_lines
    exact (zeroRowsPair (movRows ((splitLines text).foldl movStep movInit).found) _).2
  · unfold parse_cuentas_from_text parse_cuentas_lines
    exact (zeroRowsPair ((splitLines text).foldl cuentaStep cuentaInit).rows _).1
  · unfold parse_cuentas_from_text parse_cuentas_lines
    exact (zeroRowsPair ((splitLines text).foldl cuentaStep cuentaInit).rows _).2
  · unfold parse_sitpat_from_text parse_sitpat_lines
    exact (zeroRowsPair (sitpatRows ((splitLines text).foldl sitpatStep sitpatInit).found) _).1
  · unfold parse_sitpat_from_text parse_sitpat_lines
    exact (zeroRowsPair (sitpatRows ((splitLines text).foldl sitpatStep sitpatInit).found) _).2
  · unfold parse_metas_from_text parse_metas_lines
    exact (zeroRowsPair ((splitLines text).foldl metaStep metaInit).rows _).1
  · unfold parse_metas_from_text parse_metas_lines
    exact (zeroRowsPair ((splitLines text).foldl metaStep metaInit).rows _).2
  · unfold parse_recursos_from_text parse_recursos_lines
    exact recFold_warnings (splitLines text) recInit (by simp [recInit])
  · unfold parse_gastos_objeto_from_text parse_gastos_lines
    exact gastoFold_warnings (splitLines text) gastoInit (by simp [gastoInit])
  · unfold parse_programas_from_text parse_programas_lines
    exact progFold_warnings (splitLines text) progInit (by simp [progInit])

theorem C3_zero_rows_warning_witness :
    (parse_movimientos_from_text "").2 = ["No se encontraron movimientos de tesoreria."] ∧
    recWarnShape "Fila con cantidad de importes inesperada: \x27Linea rara 1,00 2,00\x27" :=
  ⟨(C3_zero_rows_warning "").1.mp (by decide),
   (C3_zero_rows_warning
      ("evolucion de los recursos\n1. Presupuestarios\nLinea rara 1,00 2,00")).2.2.2.2.2.2.2.2.1
     "Fila con cantidad de importes inesperada: \x27Linea rara 1,00 2,00\x27" (by decide)⟩

/-! ### C10: totality of `parse_amount_ar` on `_AMOUNT_RE` matches -/

theorem dropWhile_all_false {p : Char → Bool} :
    ∀ {cs : List Char}, (∀ c ∈ cs, p c = false) → cs.dropWhile p = cs
  | [], _ => rfl
  | c :: t, h => by
    have hc := h c (by simp)
    simp [List.dropWhile, hc]

theorem pyStrip_id {cs : List Char} (h : ∀ c ∈ cs, isPyWs c = false) :
    pyStrip cs = cs := by
  unfold pyStrip stripChars
  rw [dropWhile_all_false h]
  rw [dropWhile_all_false (fun c hc => h c (List.mem_reverse.mp hc))]
  exact List.reverse_reverse cs

theorem digit_not_ws {c : Char} (h : c.isDigit = true) : isPyWs c = false := by
  by_contra hne
  have hws : isPyWs c = true := by revert hne; cases isPyWs c <;> simp
  simp only [isPyWs, Bool.or_eq_true, decide_eq_true_eq] at hws
  rcases hws with ((((h1 | h1) | h1) | h1) | h1) | h1 <;> subst h1 <;> simp at h

theorem digit_ne_dot {c : Char} (h : c.isDigit = true) : (c = '.') = False := by
  simp only [eq_iff_iff, iff_false]
  intro he
  rw [he] at h
  exact absurd h (by decide)

theorem digit_ne_comma {c : Char} (h : c.isDigit = true) : (c = ',') = False := by
  simp only [eq_iff_iff, iff_false]
  intro he
  rw [he] at h
  exact absurd h (by decide)

theorem cleanAmount_append (l r : List Char) :
    cleanAmount (l ++ r) = cleanAmount l ++ cleanAmount r := by
  simp [cleanAmount]

theorem cleanAmount_digits :
    ∀ {cs : List Char}, cs.all Char.isDigit = true → cleanAmount cs = cs
  | [], _ => rfl
  | c :: t, h => by
    simp only [List.all_cons, Bool.and_eq_true] at h
    show (if c = '.' then [] else if c = ',' then ['.'] else [c]) ++ cleanAmount t = c :: t
    rw [if_neg (by rw [digit_ne_dot h.1]; exact id), if_neg (by rw [digit_ne_comma h.1]; exact id)]
    rw [cleanAmount_digits h.2]
    rfl

theorem cleanAmount_groups :
    ∀ {cs : List Char}, cs.all (fun c => c.isDigit || c = '.') = true →
      (cleanAmount cs).all Char.isDigit = true
  | [], _ => rfl
  | c :: t, h => by
    simp only [List.all_cons, Bool.and_eq_true] at h
    show ((if c = '.' then [] else if c = ',' then ['.'] else [c]) ++ cleanAmount t).all _ = true
    rcases Bool.or_eq_true_iff.mp h.1 with hd | hdot
    · rw [if_neg (by rw [digit_ne_dot hd]; exact id), if_neg (by rw [digit_ne_comma hd]; exact id)]
      simp only [List.cons_append, List.nil_append, List.all_cons, Bool.and_eq_true]
      exact ⟨hd, cleanAmount_groups h.2⟩
    · rw [if_pos (by exact decide_eq_true_eq.mp hdot)]
      simpa using cleanAmount_groups h.2

theorem decPart_shape {cs t r : List Char} (h : decPart cs = some (t, r)) :
    ∃ a b, t = [',', a, b] ∧ a.isDigit = true ∧ b.isDigit = true := by
  unfold decPart at h
  split at h
  · split at h
    · rename_i a b rest hab
      simp only [Option.some.injEq, Prod.mk.injEq] at h
      obtain ⟨ht, _⟩ := h
      subst ht
      simp only [Bool.and_eq_true] at hab
      exact ⟨a, b, rfl, hab.1, hab.2⟩
    · cases h
  · cases h

theorem matchTail_shape_aux :
    ∀ (n : Nat) (cs t r : List Char), cs.length ≤ n → matchTail cs = some (t, r) →
      ∃ gs a b, t = gs ++ [',', a, b] ∧
        gs.all (fun c => c.isDigit || c = '.') = true ∧
        a.isDigit = true ∧ b.isDigit = true := by
  intro n
  induction n with
  | zero =>
    intro cs t r hl h
    have hcs : cs = [] := List.eq_nil_of_length_eq_zero (by omega)
    subst hcs
    rw [matchTail.eq_def] at h
    simp [decPart] at h
  | succ n ih =>
    intro cs t r hl h
    rw [matchTail.eq_def] at h
    split at h
    · rename_i a b c rest
      split at h
      · rename_i habc
        cases hmt : matchTail rest with
        | none =>
          rw [hmt] at h
          obtain ⟨x, y, ht, hx, hy⟩ := decPart_shape h
          exact ⟨[], x, y, ht, rfl, hx, hy⟩
        | some q =>
          obtain ⟨t2, r2⟩ := q
          rw [hmt] at h
          simp only [Option.some.injEq, Prod.mk.injEq] at h
          obtain ⟨ht, hr⟩ := h
          subst ht
          subst hr
          obtain ⟨gs2, x, y, ht2, hgs2, hx, hy⟩ :=
            ih rest t2 r2 (by simp at hl; omega) hmt
          refine ⟨'.' :: a :: b :: c :: gs2, x, y, ?_, ?_, hx, hy⟩
          · rw [ht2]; rfl
          · simp only [Bool.and_eq_true] at habc
            simp only [List.all_cons, Bool.and_eq_true]
            refine ⟨by simp, by simp [habc.1.1], by simp [habc.1.2], by simp [habc.2], hgs2⟩
      · obtain ⟨x, y, ht, hx, hy⟩ := decPart_shape h
        exact ⟨[], x, y, ht, rfl, hx, hy⟩
    · obtain ⟨x, y, ht, hx, hy⟩ := decPart_shape h
      exact ⟨[], x, y, ht, rfl, hx, hy⟩

theorem matchTail_shape {cs t r : List Char} (h : matchTail cs = some (t, r)) :
    ∃ gs a b, t = gs ++ [',', a, b] ∧
      gs.all (fun c => c.isDigit || c = '.') = true ∧
      a.isDigit = true ∧ b.isDigit = true :=
  matchTail_shape_aux cs.length cs t r (le_refl _) h

theorem withDigits_shape {ds rest t r : List Char}
    (h : withDigits ds rest = some (t, r)) (hds : ds.all Char.isDigit = true)
    (hne : ds ≠ []) :
    ∃ es gs a b, t = es ++ gs ++ [',', a, b] ∧ es ≠ [] ∧
      es.all Char.isDigit = true ∧
      gs.all (fun c => c.isDigit || c = '.') = true ∧
      a.isDigit = true ∧ b.isDigit = true := by
  simp only [withDigits, Option.map_eq_some'] at h
  obtain ⟨⟨t', r'⟩, hmt, heq⟩ := h
  obtain ⟨gs, a, b, ht', hgs, ha, hb⟩ := matchTail_shape hmt
  cases heq
  exact ⟨ds, gs, a, b, by rw [ht']; simp, hne, hds, hgs, ha, hb⟩

theorem digitsStart_shape {cs t r : List Char} (h : digitsStart cs = some (t, r)) :
    ∃ es gs a b, t = es ++ gs ++ [',', a, b] ∧ es ≠ [] ∧
      es.all Char.isDigit = true ∧
      gs.all (fun c => c.isDigit || c = '.') = true ∧
      a.isDigit = true ∧ b.isDigit = true := by
  match cs, h with
  | d1 :: d2 :: d3 :: r3, h =>
    simp only [digitsStart] at h
    split at h
    · rename_i h1
      split at h
      · rename_i h2
        split at h
        · rename_i h3
          rcases orElse_eq_some h with hh | hh
          · exact withDigits_shape hh (by simp [h1, h2, h3]) (by simp)
          · rcases orElse_eq_some hh with hh2 | hh2
            · exact withDigits_shape hh2 (by simp [h1, h2]) (by simp)
            · exact withDigits_shape hh2 (by simp [h1]) (by simp)
        · rcases orElse_eq_some h with hh | hh
          · exact withDigits_shape hh (by simp [h1, h2]) (by simp)
          · exact withDigits_shape hh (by simp [h1]) (by simp)
      · exact withDigits_shape h (by simp [h1]) (by simp)
    · cases h
  | [d1, d2], h =>
    simp only [digitsStart] at h
    split at h
    · rename_i h1
      split at h
      · rename_i h2
        rcases orElse_eq_some h with hh | hh
        · exact withDigits_shape hh (by simp [h1, h2]) (by simp)
        · exact withDigits_shape hh (by simp [h1]) (by simp)
      · exact withDigits_shape h (by simp [h1]) (by simp)
    · cases h
  | [d1], h =>
    simp only [digitsStart] at h
    split at h
    · rename_i h1
      exact withDigits_shape h (by simp [h1]) (by simp)
    · cases h

theorem matchAmountAt_shape {cs t r : List Char} (h : matchAmountAt cs = some (t, r)) :
    ∃ sgn es gs a b, (sgn = [] ∨ sgn = ['-']) ∧ t = sgn ++ es ++ gs ++ [',', a, b] ∧
      es ≠ [] ∧ es.all Char.isDigit = true ∧
      gs.all (fun c => c.isDigit || c = '.') = true ∧
      a.isDigit = true ∧ b.isDigit = true := by
  match cs, h with
  | c :: rest, h =>
    simp only [matchAmountAt] at h
    split at h
    · rename_i hc
      subst hc
      simp only [Option.map_eq_some'] at h
      obtain ⟨⟨t', r'⟩, hds, heq⟩ := h
      obtain ⟨es, gs, a, b, ht', hne, hes, hgs, ha, hb⟩ := digitsStart_shape hds
      cases heq
      exact ⟨['-'], es, gs, a, b, Or.inr rfl, by rw [ht']; rfl, hne, hes, hgs, ha, hb⟩
    · obtain ⟨es, gs, a, b, ht, hne, hes, hgs, ha, hb⟩ := digitsStart_shape h
      exact ⟨[], es, gs, a, b, Or.inl rfl, by rw [ht]; rfl, hne, hes, hgs, ha, hb⟩

theorem scanAmountsF_succ (n : Nat) (cs : List Char) :
    scanAmountsF (n + 1) cs =
      (match matchAmountAt cs with
        | some (m, rest) => m :: scanAmountsF n rest
        | none => match cs with | [] => [] | _ :: t => scanAmountsF n t) := rfl

theorem scanAmountsF_mem :
    ∀ (fuel : Nat) (cs m : List Char), m ∈ scanAmountsF fuel cs →
      ∃ cs0 r, matchAmountAt cs0 = some (m, r) := by
  intro fuel
  induction fuel with
  | zero =>
    intro cs m hm
    simp [scanAmountsF] at hm
  | succ n ih =>
    intro cs m hm
    rw [scanAmountsF_succ] at hm
    split at hm
    · rename_i m' rest hma
      rcases List.mem_cons.mp hm with h1 | h1
      · subst h1
        exact ⟨cs, rest, hma⟩
      · exact ih rest m h1
    · rename_i hma
      split at hm
      · cases hm
      · exact ih _ m hm

theorem takeWhile_append_all {p : Char → Bool} :
    ∀ {l r : List Char}, l.all p = true → (∀ x, r.head? = some x → p x = false) →
      ((l ++ r).takeWhile p = l ∧ (l ++ r).dropWhile p = r)
  | [], r, _, hr => by
    cases r with
    | nil => exact ⟨rfl, rfl⟩
    | cons x t =>
      have hx := hr x rfl
      simp [List.takeWhile, List.dropWhile, hx]
  | c :: l, r, hl, hr => by
    simp only [List.all_cons, Bool.and_eq_true] at hl
    have := takeWhile_append_all (p := p) (l := l) (r := r) hl.2 hr
    simp [List.takeWhile, List.dropWhile, hl.1, this.1, this.2]


theorem pySign_cons_digit {d : Char} (t : List Char) (hd : d.isDigit = true) :
    pySign (d :: t) = (1, d :: t) := by
  unfold pySign
  split
  · rename_i t2 heq
    rw [List.cons.injEq] at heq
    rw [heq.1] at hd
    exact absurd hd (by decide)
  · rename_i t2 heq
    rw [List.cons.injEq] at heq
    rw [heq.1] at hd
    exact absurd hd (by decide)
  · rfl

theorem pySign_neg (t : List Char) : pySign ('-' :: t) = (-1, t) := rfl

theorem pyFrac_dot (t : List Char) :
    pyFrac ('.' :: t) = (t.takeWhile Char.isDigit, t.dropWhile Char.isDigit) := rfl

theorem pyFloatL_shape (sgn D : List Char) (a b : Char)
    (hs : sgn = [] ∨ sgn = ['-']) (hne : D ≠ []) (hD : D.all Char.isDigit = true)
    (ha : a.isDigit = true) (hb : b.isDigit = true) :
    ∃ q, pyFloatL (sgn ++ (D ++ ['.', a, b])) = some q := by
  obtain ⟨d, D', rfl⟩ : ∃ d D', D = d :: D' := by
    cases D with
    | nil => exact absurd rfl hne
    | cons d t => exact ⟨d, t, rfl⟩
  simp only [List.all_cons, Bool.and_eq_true] at hD
  have hstrip : pyStrip (sgn ++ ((d :: D') ++ ['.', a, b])) =
      sgn ++ ((d :: D') ++ ['.', a, b]) := by
    apply pyStrip_id
    intro c hc
    rcases List.mem_append.mp hc with h1 | h2
    · rcases hs with rfl | rfl
      · simp at h1
      · rw [List.mem_singleton] at h1
        subst h1
        decide
    · rcases List.mem_append.mp h2 with h3 | h4
      · rw [List.mem_cons] at h3
        rcases h3 with rfl | h3
        · exact digit_not_ws hD.1
        · exact digit_not_ws (List.all_eq_true.mp hD.2 c h3)
      · rw [List.mem_cons] at h4
        rcases h4 with rfl | h4
        · decide
        · rw [List.mem_cons] at h4
          rcases h4 with rfl | h4
          · exact digit_not_ws ha
          · rw [List.mem_singleton] at h4
            subst h4
            exact digit_not_ws hb
  have htd := takeWhile_append_all (p := Char.isDigit)
    (l := d :: D') (r := ['.', a, b])
    (by simp [hD.1, hD.2]) (by intro x hx; cases hx; decide)
  have hta : List.takeWhile Char.isDigit [a, b] = [a, b] := by
    simp [List.takeWhile_cons, ha, hb]
  have hda : List.dropWhile Char.isDigit [a, b] = [] := by
    simp [List.dropWhile_cons, ha, hb]
  rcases hs with rfl | rfl
  · rw [pyFloatL]
    rw [hstrip]
    simp only [List.nil_append, List.cons_append] at htd ⊢
    rw [pySign_cons_digit _ hD.1]
    dsimp only
    rw [htd.1, htd.2, pyFrac_dot, hta, hda]
    dsimp only
    rw [if_neg (by simp)]
    exact ⟨_, rfl⟩
  · rw [pyFloatL]
    rw [hstrip]
    simp only [List.cons_append, List.nil_append] at htd ⊢
    rw [pySign_neg]
    dsimp only
    rw [htd.1, htd.2, pyFrac_dot, hta, hda]
    dsimp only
    rw [if_neg (by simp)]
    exact ⟨_, rfl⟩

theorem matchAmountAt_parse {cs m r : List Char} (h : matchAmountAt cs = some (m, r)) :
    ∃ q, parse_amount_ar (some (String.mk m)) = Except.ok q := by
  obtain ⟨sgn, es, gs, a, b, hsg, hm, hne, hes, hgs, ha, hb⟩ := matchAmountAt_shape h
  subst hm
  have hnows : ∀ c ∈ sgn ++ es ++ gs ++ [',', a, b], isPyWs c = false := by
    intro c hc
    rcases List.mem_append.mp hc with h1 | h2
    · rcases List.mem_append.mp h1 with h3 | h4
      · rcases List.mem_append.mp h3 with h5 | h6
        · rcases hsg with rfl | rfl
          · simp at h5
          · rw [List.mem_singleton] at h5
            subst h5
            decide
        · exact digit_not_ws (List.all_eq_true.mp hes c h6)
      · rcases Bool.or_eq_true_iff.mp (List.all_eq_true.mp hgs c h4) with hd | hdot
        · exact digit_not_ws hd
        · rw [decide_eq_true_eq] at hdot
          subst hdot
          decide
    · rw [List.mem_cons] at h2
      rcases h2 with rfl | h2
      · decide
      · rw [List.mem_cons] at h2
        rcases h2 with rfl | h2
        · exact digit_not_ws ha
        · rw [List.mem_singleton] at h2
          subst h2
          exact digit_not_ws hb
  have hstrip := pyStrip_id hnows
  have hcsgn : cleanAmount sgn = sgn := by
    rcases hsg with rfl | rfl
    · rfl
    · rfl
  have hcdec : cleanAmount [',', a, b] = ['.', a, b] := by
    simp [cleanAmount, digit_ne_dot ha, digit_ne_comma ha, digit_ne_dot hb,
      digit_ne_comma hb]
  have hclean : cleanAmount (sgn ++ es ++ gs ++ [',', a, b]) =
      sgn ++ ((es ++ cleanAmount gs) ++ ['.', a, b]) := by
    rw [cleanAmount_append, cleanAmount_append, cleanAmount_append]
    rw [hcsgn, cleanAmount_digits hes, hcdec]
    simp [List.append_assoc]
  obtain ⟨q, hq⟩ := pyFloatL_shape sgn (es ++ cleanAmount gs) a b hsg
    (by simp [hne])
    (by rw [List.all_append, hes, cleanAmount_groups hgs]; rfl) ha hb
  refine ⟨q, ?_⟩
  rw [parse_amount_ar]
  dsimp only
  rw [hstrip]
  rw [if_neg (by simp)]
  rw [hclean, hq]

/-- C10: every token found by the amount regex scan `find_amounts` is
accepted by `parse_amount_ar`, which returns a value and never an error -
so the parsers\x27 amount extraction is total on regex-matched tokens of
arbitrary input lines. -/
theorem C10_amount_tokens_total (s t : String) (h : t ∈ find_amounts s) :
    ∃ q, parse_amount_ar (some t) = Except.ok q := by
  simp only [find_amounts, scanAmounts, List.mem_map] at h
  obtain ⟨m, hm, rfl⟩ := h
  obtain ⟨cs0, r, hma⟩ := scanAmountsF_mem _ _ _ hm
  exact matchAmountAt_parse hma

theorem C10_amount_tokens_total_witness :
    ("1.234,56" ∈ find_amounts "total 1.234,56 x") ∧
    ∃ q, parse_amount_ar (some "1.234,56") = Except.ok q :=
  ⟨by decide, C10_amount_tokens_total "total 1.234,56 x" "1.234,56" (by decide)⟩
